import Mathlib

/-!
# Verification of the kNet UDP message-connection engine

Shallow embedding of the UDP-specific protocol engine of kNet
(`src/UDPMessageConnection.cpp`, `src/MessageConnection.cpp`) in Lean 4,
together with theorems settling the frozen claims about the engine.

Modelling conventions:
* machine ticks (`tick_t`) are modelled as `Nat`;
* `float` quantities (RTT, RTO, datagram send rate) are modelled as `Rat`;
  every float expression appearing in the claims is built from values and
  coefficients (`0.5`, `0.75`, `2`, `1000`, `5000`, ...) that are exact in
  both binary floating point and rational arithmetic, and the claimed
  properties are clamp/affine facts that are insensitive to rounding;
* C++ `std::map` objects are modelled as key-sorted association lists,
  C++ vectors and queues as Lean lists;
* pointer-mutated objects (`NetworkMessage`) are modelled by value; a ghost
  `freedMessages` list records the `FreeMessage` calls so that effects on
  freed messages remain observable.
-/

namespace KNet

/-- The `ConnectionState` enum from `MessageConnection.h` (listed in the spec's
data model). -/
inductive ConnectionState where
  | connectionPending
  | connectionOK
  | connectionDisconnecting
  | connectionPeerClosed
  | connectionClosed
  deriving DecidableEq, Repr

/-- The `UDPMessageConnection::HandleDisconnectAckMessage`
(`UDPMessageConnection.cpp:936-945`): the state test only selects which line
is logged; the function then unconditionally assigns
`connectionState = ConnectionClosed`. -/
def handleDisconnectAckMessage (s : ConnectionState) : ConnectionState :=
  -- `if (connectionState != ConnectionDisconnecting) LOGNET(...) else LOGNET(...)`
  -- has no effect on the state; both paths fall through to the assignment.
  match s with
  | _ => ConnectionState.connectionClosed

/-! ## RTO estimator (`UpdateRTOCounterOnPacketAck` / `...OnPacketLoss`) -/

/-- The RTT/RTO portion of the `UDPMessageConnection` state
(`retransmissionTimeout`, `smoothedRTT`, `rttVariation`, `rttCleared`). -/
structure RTOState where
  retransmissionTimeout : ℚ
  smoothedRTT : ℚ
  rttVariation : ℚ
  rttCleared : Bool
  deriving DecidableEq, Repr

/-- The `static const float minRTOTimeoutValue = 1000.f;`
(`UDPMessageConnection.cpp:817`). -/
def minRTOTimeoutValue : ℚ := 1000

/-- The `static const float maxRTOTimeoutValue = 5000.f;`
(`UDPMessageConnection.cpp:818`). -/
def maxRTOTimeoutValue : ℚ := 5000

/-- The RTT/RTO state established by `UDPMessageConnection::Initialize()`
(`UDPMessageConnection.cpp:92-104`): `rttCleared = true`,
`retransmissionTimeout = 3.f`, `smoothedRTT = 3.f`, `rttVariation = 0.f`.
The constructor (`UDPMessageConnection.cpp:48`) sets the same values. -/
def rtoInitState : RTOState :=
  { retransmissionTimeout := 3
    smoothedRTT := 3
    rttVariation := 0
    rttCleared := true }

/-- The `UDPMessageConnection::UpdateRTOCounterOnPacketAck(float rtt)`
(`UDPMessageConnection.cpp:822-855`): RFC 2988 update of `rttVariation` and
`smoothedRTT` (first-measurement case when `rttCleared`), then
`retransmissionTimeout = min(5000, max(1000, 1 + 2*(smoothedRTT + rttVariation)))`. -/
def updateRTOCounterOnPacketAck (s : RTOState) (rtt : ℚ) : RTOState :=
  let alpha : ℚ := 1 / 8
  let beta : ℚ := 1 / 4
  -- in the `else` branch both assignments read the pre-update `smoothedRTT`
  let rttVariation :=
    if s.rttCleared then rtt / 2
    else (1 - beta) * s.rttVariation + beta * |s.smoothedRTT - rtt|
  let smoothedRTT :=
    if s.rttCleared then rtt
    else (1 - alpha) * s.smoothedRTT + alpha * rtt
  let safetyThresholdAdd : ℚ := 1
  let safetyThresholdMul : ℚ := 2
  { retransmissionTimeout :=
      min maxRTOTimeoutValue
        (max minRTOTimeoutValue
          (safetyThresholdAdd + safetyThresholdMul * (smoothedRTT + rttVariation)))
    smoothedRTT := smoothedRTT
    rttVariation := rttVariation
    rttCleared := false }

/-- The `UDPMessageConnection::UpdateRTOCounterOnPacketLoss()`
(`UDPMessageConnection.cpp:857-872`):
`retransmissionTimeout = smoothedRTT = min(5000, max(1000, smoothedRTT * 2))`,
`rttVariation = 0`. (The `numLossesLastFrame` increment is not part of the
RTO state.) -/
def updateRTOCounterOnPacketLoss (s : RTOState) : RTOState :=
  let newRTO := min maxRTOTimeoutValue (max minRTOTimeoutValue (s.smoothedRTT * 2))
  { retransmissionTimeout := newRTO
    smoothedRTT := newRTO
    rttVariation := 0
    rttCleared := s.rttCleared }

/-- States of the RTO estimator reachable from `Initialize()` by any sequence
of packet-ack updates (with nonnegative measured RTTs) and packet-loss
updates. -/
inductive RTOReachable : RTOState → Prop where
  | init : RTOReachable rtoInitState
  | ack {s : RTOState} (rtt : ℚ) : RTOReachable s →
      RTOReachable (updateRTOCounterOnPacketAck s rtt)
  | loss {s : RTOState} : RTOReachable s →
      RTOReachable (updateRTOCounterOnPacketLoss s)

/-! ## Datagram pacing (`NewDatagramSent`, C6) -/

/-- The `UDPMessageConnection::NewDatagramSent()`
(`UDPMessageConnection.cpp:701-710`).
`datagramSendTickDelay = (tick_t)(Clock::TicksPerSec() / datagramSendRate)`
is passed in already computed (it is a pure function of two fields).
If `TicksInBetween(now, lastDatagramSendTime) / datagramSendTickDelay < 20`
then `lastDatagramSendTime += datagramSendTickDelay` else
`lastDatagramSendTime = now`. Returns the new `lastDatagramSendTime`. -/
def newDatagramSent (datagramSendTickDelay now lastDatagramSendTime : ℕ) : ℕ :=
  if (now - lastDatagramSendTime) / datagramSendTickDelay < 20 then
    lastDatagramSendTime + datagramSendTickDelay
  else
    now

/-- The spec's wording of the pacing-advance rule, for comparison with
`newDatagramSent`: the last-send tick "advances by one slot, unless the
engine has fallen more than twenty slots behind, in which case it jumps to
now" (spec §4.5; claim C6 reads "more than twenty slots" strictly). -/
def newDatagramSentSpec (datagramSendTickDelay now lastDatagramSendTime : ℕ) : ℕ :=
  if now - lastDatagramSendTime > 20 * datagramSendTickDelay then
    now
  else
    lastDatagramSendTime + datagramSendTickDelay

/-! ## Ping / RTT measurement (`HandlePingReplyMessage`, C7) -/

/-- The `ConnectionStatistics::PingTrack` (spec data model: ping id, sent tick,
reply tick, reply-received flag). -/
structure PingTrack where
  pingID : ℕ
  pingSentTick : ℕ
  pingReplyTick : ℕ
  replyReceived : Bool
  deriving DecidableEq, Repr

/-- The part of the `MessageConnection` state read and written by
`HandlePingReplyMessage`: the ping history and the `rtt` field. -/
structure PingState where
  ping : List PingTrack
  rtt : ℚ
  deriving DecidableEq, Repr

/-- The `Clock::TicksToMillisecondsD` over `TicksInBetween(t2, t1) = t2 - t1`,
with `ticksPerMillisecond` the platform tick rate. -/
def ticksToMilliseconds (ticksPerMillisecond : ℚ) (ticks : ℕ) : ℚ :=
  (ticks : ℚ) / ticksPerMillisecond

/-- The loop body of `MessageConnection::HandlePingReplyMessage`
(`MessageConnection.cpp:1007-1018`): find the first ping entry with the
received `pingID` whose reply has not yet been received; stamp its reply
tick and flag, and update `rtt = rttPredictBias * newRtt
+ (1.f * rttPredictBias) * rtt` with `rttPredictBias = 0.5`. -/
def pingReplyScan (ticksPerMillisecond : ℚ) (now : ℕ) (pingID : ℕ)
    (rtt : ℚ) : List PingTrack → List PingTrack × ℚ
  | [] => ([], rtt)
  | track :: rest =>
    if track.pingID = pingID ∧ track.replyReceived = false then
      let newRtt := ticksToMilliseconds ticksPerMillisecond (now - track.pingSentTick)
      let rttPredictBias : ℚ := 1 / 2
      ({ track with pingReplyTick := now, replyReceived := true } :: rest,
       rttPredictBias * newRtt + (1 * rttPredictBias) * rtt)
    else
      let (rest', rtt') := pingReplyScan ticksPerMillisecond now pingID rtt rest
      (track :: rest', rtt')

/-- The `MessageConnection::HandlePingReplyMessage(const char *data, size_t numBytes)`
(`MessageConnection.cpp:993-1022`). `data` is the message payload; a payload
whose size differs from 1 byte is rejected without touching the state. -/
def handlePingReplyMessage (ticksPerMillisecond : ℚ) (now : ℕ)
    (s : PingState) (data : List ℕ) : PingState :=
  match data with
  | [pingID] =>
    { ping := (pingReplyScan ticksPerMillisecond now pingID s.rtt s.ping).1
      rtt := (pingReplyScan ticksPerMillisecond now pingID s.rtt s.ping).2 }
  | _ => s

/-! ## Network messages and the accept-queue drain (C8) -/

/-- The `NetworkMessage` (fields relevant to the embedded operations; see the
spec's data model and `NetworkMessage.h` users in the sources).
`transfer` is a key into the fragmented-send transfer table
(`none` models the C++ null pointer). -/
structure NetworkMessage where
  id : ℕ
  reliable : Bool
  inOrder : Bool
  priority : ℕ
  contentID : ℕ
  messageNumber : ℕ
  reliableMessageNumber : ℕ
  sendCount : ℕ
  obsolete : Bool
  transfer : Option ℕ
  fragmentIndex : ℕ
  dataSize : ℕ
  deriving DecidableEq, Repr

/-- Modelled from the spec: `NetworkMessage::IsNewerThan` (not under `src/`)
compares 32-bit message numbers "comparing with wrap" (spec §4.1):
`a` is newer than `b` iff the wrapped difference `a - b (mod 2^32)` is
nonzero and below half the range. -/
def messageNumberIsNewerThan (a b : ℕ) : Bool :=
  (a + 2 ^ 32 - b % 2 ^ 32) % 2 ^ 32 ≠ 0 ∧
  (a + 2 ^ 32 - b % 2 ^ 32) % 2 ^ 32 < 2 ^ 31

/-- The part of the `MessageConnection` state touched by
`AcceptOutboundMessages`: the connection state, the outbound-accept queue
(producer: application), the internal send priority queue, and the outbound
content-id map. The priority ordering of `outboundQueue` is abstracted to
list order (none of the settled claims depend on it); the content-id map
`outboundContentIDMessages` maps a `(message id, content id)` key to the
`messageNumber` of the stored message (the C++ map stores a pointer; the
`messageNumber` counter is unique per message, so it serves as identity). -/
structure AcceptState where
  connectionState : ConnectionState
  outboundAcceptQueue : List NetworkMessage
  outboundQueue : List NetworkMessage
  outboundContentIDMessages : List ((ℕ × ℕ) × ℕ)
  deriving DecidableEq, Repr

/-- Look up a key in an association list (`std::map::find`). -/
def assocFind (key : ℕ × ℕ) : List ((ℕ × ℕ) × ℕ) → Option ℕ
  | [] => none
  | (k, v) :: rest => if k = key then some v else assocFind key rest

/-- Replace the value under `key`, or insert the binding if absent
(`std::map` slot assignment). -/
def assocStore (key : ℕ × ℕ) (v : ℕ) : List ((ℕ × ℕ) × ℕ) → List ((ℕ × ℕ) × ℕ)
  | [] => [(key, v)]
  | (k, w) :: rest =>
    if k = key then (k, v) :: rest else (k, w) :: assocStore key v rest

/-- Set the `obsolete` flag on the message identified by `messageNumber`
(the C++ code mutates the message through the stored pointer; the queued
copy is the one it aliases). -/
def markObsolete (num : ℕ) (queue : List NetworkMessage) : List NetworkMessage :=
  queue.map fun m => if m.messageNumber = num then { m with obsolete := true } else m

/-- The `MessageConnection::CheckAndSaveOutboundMessageWithContentID`
(`MessageConnection.cpp:830-863`): messages with zero content id are left
alone; otherwise the `(id, contentID)` slot of the map is consulted, the
older of the stored and the new message (by wrap-aware `messageNumber`
comparison) is marked obsolete, and the newer one occupies the slot. -/
def checkAndSaveOutboundMessageWithContentID (s : AcceptState)
    (msg : NetworkMessage) : AcceptState :=
  if msg.contentID = 0 then s
  else
    match assocFind (msg.id, msg.contentID) s.outboundContentIDMessages with
    | some storedNum =>
      if messageNumberIsNewerThan msg.messageNumber storedNum then
        { s with
          outboundQueue := markObsolete storedNum s.outboundQueue
          outboundContentIDMessages :=
            assocStore (msg.id, msg.contentID) msg.messageNumber
              s.outboundContentIDMessages }
      else
        { s with outboundQueue := markObsolete msg.messageNumber s.outboundQueue }
    | none =>
      { s with
        outboundContentIDMessages :=
          assocStore (msg.id, msg.contentID) msg.messageNumber
            s.outboundContentIDMessages }

/-- The drain loop of `MessageConnection::AcceptOutboundMessages`
(`MessageConnection.cpp:378-386`):
`while(outboundAcceptQueue.Size() > 0 && --numMessagesToAcceptPerFrame > 0)`.
The queue emptiness is tested first; then the counter is pre-decremented and
tested; only then is the front message moved to `outboundQueue`
(`InsertWithResize`) and run through the content-id check. -/
def acceptLoop : ℕ → AcceptState → AcceptState
  | 0, s => s          -- counter already exhausted (the loop exits unchanged)
  | 1, s => s          -- the pre-decrement makes the counter 0: exit unchanged
  | n + 2, s =>
    match s.outboundAcceptQueue with
    | [] => s
    | msg :: rest =>
      acceptLoop (n + 1)
        (checkAndSaveOutboundMessageWithContentID
          { s with
            outboundAcceptQueue := rest
            outboundQueue := s.outboundQueue ++ [msg] }
          msg)

/-- The `MessageConnection::AcceptOutboundMessages`
(`MessageConnection.cpp:366-389`): returns unchanged unless the connection
state is `ConnectionOK`; otherwise drains the accept queue with
`numMessagesToAcceptPerFrame = 500`. -/
def acceptOutboundMessages (s : AcceptState) : AcceptState :=
  if s.connectionState ≠ ConnectionState.connectionOK then s
  else acceptLoop 500 s

/-! ## Packet-ack coalescing and the ack wire format (C4, C5) -/

/-- Modelled from the spec: `AddPacketID` (packet-id arithmetic lives outside
`src/`): "22-bit datagram sequence numbers with wrap-aware ordering"
(spec §2), so addition wraps modulo `2^22`. -/
def addPacketID (id add : ℕ) : ℕ :=
  (id + add) % 2 ^ 22

/-- The `inboundPacketAckTrack` is a `std::map<packet_id_t, PacketAckTrack>`;
only the key and the `sentTick` field are used by the embedded operations,
so it is modelled as a key-sorted association list of
`(packetID, sentTick)` pairs (`head` = `begin()`, the smallest key). -/
abbrev AckPendingMap := List (ℕ × ℕ)

/-- The `std::map::find` on the pending-ack map: does an entry with this packet
id exist? -/
def ackMapHasKey (key : ℕ) (pending : AckPendingMap) : Bool :=
  pending.any fun p => p.1 = key

/-- The `std::map::erase(key)` on the pending-ack map (keys are unique). -/
def ackMapErase (key : ℕ) (pending : AckPendingMap) : AckPendingMap :=
  pending.filter fun p => p.1 ≠ key

/-- The bitfield loop of `UDPMessageConnection::SendPacketAckMessage`
(`UDPMessageConnection.cpp:882-892`): for `i = 0..31`, if packet id
`AddPacketID(packetID, i+1)` is pending, set bit `i` of `sequence` and erase
the entry. `is` instantiates to `List.range 32`. Returns the bitfield, the
remaining map, and (as a ghost, in loop order) the list of erased packet
ids. -/
def collectAckBitsAux (base : ℕ) (pending : AckPendingMap) :
    List ℕ → ℕ × AckPendingMap × List ℕ
  | [] => (0, pending, [])
  | i :: rest =>
    let id := addPacketID base (i + 1)
    if ackMapHasKey id pending then
      let c := collectAckBitsAux base (ackMapErase id pending) rest
      (c.1 ||| (1 <<< i), c.2.1, id :: c.2.2)
    else
      collectAckBitsAux base pending rest

/-- The `UDPMessageConnection::SendPacketAckMessage`
(`UDPMessageConnection.cpp:874-902`): `while(inboundPacketAckTrack.size() > 0)`
take the first (smallest) pending packet id as the base, erase it, collect
up to 32 consecutive ids into the bitfield, and emit one `MsgIdPacketAck`
message per iteration. Returns the emitted `(base packetID, sequence)`
pairs; the loop always runs the map down to empty. -/
def sendPacketAckMessage : AckPendingMap → List (ℕ × ℕ)
  | [] => []
  | (base, _) :: rest =>
    let c := collectAckBitsAux base rest (List.range 32)
    (base, c.1) :: sendPacketAckMessage c.2.1
termination_by pending => pending.length
decreasing_by
  have key : ∀ (is : List ℕ) (p : AckPendingMap),
      (collectAckBitsAux base p is).2.1.length ≤ p.length := by
    intro is
    induction is with
    | nil => intro p; simp [collectAckBitsAux]
    | cons i rest ih =>
      intro p
      simp only [collectAckBitsAux]
      split
      · exact le_trans (ih _) (List.length_filter_le _ _)
      · exact ih p
  simp only [List.length_cons]
  exact Nat.lt_succ_of_le (key (List.range 32) rest)

/-- The ghost list of packet ids one iteration of `SendPacketAckMessage`
erases from the pending map: the base id followed by the bit-matched ids in
loop order. -/
def sendPacketAckErased (base : ℕ) (rest : AckPendingMap) : List ℕ :=
  base :: (collectAckBitsAux base rest (List.range 32)).2.2

/-- The `Clock::TimespanToMillisecondsF(t1, t2)` with `ticksPerMillisecond` the
platform tick rate. -/
def timespanToMillisecondsF (ticksPerMillisecond : ℚ) (t1 t2 : ℕ) : ℚ :=
  ((t2 - t1 : ℕ) : ℚ) / ticksPerMillisecond

/-- The `static const float maxAckDelay = 33.f;` (`UDPMessageConnection.cpp:37`). -/
def maxAckDelay : ℚ := 33

/-- The `UDPMessageConnection::PerformPacketAckSends`
(`UDPMessageConnection.cpp:106-117`): while the pending map is nonempty,
break if the oldest entry is younger than `maxAckDelay` milliseconds AND
fewer than 33 entries are pending, else call `SendPacketAckMessage` (whose
own loop drains the map to empty, so this loop iterates at most once
usefully). Returns the remaining pending map and the emitted messages. -/
def performPacketAckSends (ticksPerMillisecond : ℚ) (now : ℕ)
    (pending : AckPendingMap) : AckPendingMap × List (ℕ × ℕ) :=
  match pending with
  | [] => (pending, [])
  | (_, sentTick) :: _ =>
    if timespanToMillisecondsF ticksPerMillisecond sentTick now < maxAckDelay ∧
        pending.length < 33 then
      (pending, [])
    else
      ([], sendPacketAckMessage pending)

/-- Little-endian bytes of `DataSerializer::Add<u16>`. -/
def u16LEBytes (v : ℕ) : List ℕ :=
  [v % 256, v / 256 % 256]

/-- Little-endian bytes of `DataSerializer::Add<u32>`. -/
def u32LEBytes (v : ℕ) : List ℕ :=
  [v % 256, v / 256 % 256, v / 256 ^ 2 % 256, v / 256 ^ 3 % 256]

/-- The 7-byte `MsgIdPacketAck` payload written by `SendPacketAckMessage`
(`UDPMessageConnection.cpp:894-898`): `Add<u8>(packetID & 0xFF)`,
`Add<u16>(packetID >> 8)`, `Add<u32>(sequence)`. The byte-level
`DataSerializer` is not under `src/`; modelled from the spec's wire format
("PacketAck payload: u8 base-low, u16 base-high, u32 bitfield",
little-endian as for the datagram header). -/
def encodeAckPayload (packetID seq : ℕ) : List ℕ :=
  (packetID % 256) :: u16LEBytes (packetID / 256) ++ u32LEBytes seq

/-- The decoding half of `UDPMessageConnection::HandlePacketAckMessage`
(`UDPMessageConnection.cpp:904-916`): reject any payload that is not exactly
7 bytes; otherwise read `u8 packetIDLow`, `u16 packetIDHigh`,
`u32 sequence` and reconstitute `packetID = packetIDLow | (packetIDHigh << 8)`. -/
def decodeAckPayload (data : List ℕ) : Option (ℕ × ℕ) :=
  match data with
  | [b0, b1, b2, b3, b4, b5, b6] =>
    some (b0 ||| ((b1 + 256 * b2) <<< 8),
          b3 + 256 * b4 + 256 ^ 2 * b5 + 256 ^ 3 * b6)
  | _ => none

/-- The packet ids freed by `UDPMessageConnection::HandlePacketAckMessage`
(`UDPMessageConnection.cpp:904-925`): `FreeOutboundPacketAckTrack(packetID)`
for the base id, then for each set bit `i` of `sequence` the id
`AddPacketID(packetID, 1+i)`, in ascending loop order. A malformed payload
frees nothing. -/
def handlePacketAckFreedIDs (data : List ℕ) : List ℕ :=
  match decodeAckPayload data with
  | none => []
  | some (packetID, seq) =>
    packetID ::
      ((List.range 32).filter fun i => seq.testBit i).map fun i =>
        addPacketID packetID (1 + i)

/-- The packet ids acknowledged by one `(base packetID, sequence)` ack
message: the base id plus, for each set bit `i` of the 32-bit bitfield, the
id `base + i + 1` (with 22-bit wrap). -/
def ackMessageAckedIDs (m : ℕ × ℕ) : List ℕ :=
  m.1 :: ((List.range 32).filter fun i => m.2.testBit i).map fun i =>
    addPacketID m.1 (i + 1)

/-- The number of packet ids acknowledged by one ack message. -/
def ackMessageIDCount (m : ℕ × ℕ) : ℕ :=
  (ackMessageAckedIDs m).length

/-! ## Datagram packing and sending (`SendOutPacket`, C2, C6) -/

/-- Modelled from the spec: the well-known control message ids (§6; the
numeric values live outside `src/`). Only their distinctness matters to the
embedded operations. -/
def msgIdPingRequest : ℕ := 1
def msgIdPingReply : ℕ := 2
def msgIdFlowControlRequest : ℕ := 3
def msgIdPacketAck : ℕ := 4
def msgIdDisconnect : ℕ := 2 ^ 30 - 1
def msgIdDisconnectAck : ℕ := 2 ^ 30 - 2

/-- Modelled from the spec: `VLE8_16_32::GetEncodedBitLength` (the VLE codec
is outside `src/`): the 8/16/32 variable-length encoding stores 7, 14 or 30
payload bits (one flag bit per extension, spec §2 and §6), so the encoded
length is 8, 16 or 32 bits. -/
def vle8_16_32EncodedBitLength (v : ℕ) : ℕ :=
  if v < 2 ^ 7 then 8 else if v < 2 ^ 14 then 16 else 32

/-- One sender-side `FragmentedSendManager::FragmentedTransfer` (spec data
model): the assigned 8-bit transfer id (`none` models the −1 "not yet
allocated" sentinel) and the total fragment count. -/
structure FragmentedTransfer where
  id : Option ℕ
  totalNumFragments : ℕ
  deriving DecidableEq, Repr

/-- Modelled from the spec: the sender-side fragmented-transfer table
(`FragmentedSendManager`, outside `src/`). Transfers are keyed by an
arbitrary handle (pointer identity in C++); `freeTransferIDs` is the pool of
unassigned 8-bit transfer ids ("allocates a scarce 8-bit transfer id",
spec §2; "running out throttles rather than fails", §5). -/
structure FragmentedSendState where
  transfers : List (ℕ × FragmentedTransfer)
  freeTransferIDs : List ℕ
  deriving DecidableEq, Repr

/-- Look up a transfer by its handle. -/
def findTransfer (key : ℕ) : List (ℕ × FragmentedTransfer) → Option FragmentedTransfer
  | [] => none
  | (k, t) :: rest => if k = key then some t else findTransfer key rest

/-- Assign transfer id `tid` to the transfer under `key`. -/
def setTransferID (key tid : ℕ) : List (ℕ × FragmentedTransfer) →
    List (ℕ × FragmentedTransfer)
  | [] => []
  | (k, t) :: rest =>
    if k = key then (k, { t with id := some tid }) :: rest
    else (k, t) :: setTransferID key tid rest

/-- The `NetworkMessage::GetTotalDatagramPackedSize`
(`MessageConnection.cpp:736-746`): message-id VLE length (non-fragments and
first fragments), the fixed 2-byte message header, the payload size, the
total-fragment-count VLE (first fragments), and the transfer-id byte plus
fragment-index VLE (fragments). `msg->transfer->totalNumFragments` is read
through the transfer table. -/
def getTotalDatagramPackedSize (sends : FragmentedSendState)
    (msg : NetworkMessage) : ℕ :=
  let totalNumFragments :=
    match msg.transfer with
    | none => 0
    | some key => (findTransfer key sends.transfers).elim 0 (·.totalNumFragments)
  let idLength :=
    if msg.transfer = none ∨ msg.fragmentIndex = 0 then
      vle8_16_32EncodedBitLength msg.id / 8
    else 0
  let headerLength := 2
  let contentLength := msg.dataSize
  let fragmentStartLength :=
    if msg.transfer ≠ none ∧ msg.fragmentIndex = 0 then
      vle8_16_32EncodedBitLength totalNumFragments / 8
    else 0
  let fragmentLength :=
    (if msg.transfer ≠ none then 1 else 0) +
      (if msg.transfer ≠ none ∧ msg.fragmentIndex ≠ 0 then
        vle8_16_32EncodedBitLength msg.fragmentIndex / 8
      else 0)
  idLength + headerLength + contentLength + fragmentStartLength + fragmentLength

/-- A reliable-datagram bookkeeping entry (`PacketAckTrack` in
`UDPMessageConnection.h`, fields as built at `UDPMessageConnection.cpp:429-444`). -/
structure PacketAckTrack where
  packetID : ℕ
  messages : List NetworkMessage
  sentTick : ℕ
  timeoutTick : ℕ
  sendCount : ℕ
  datagramSendRate : ℚ
  deriving DecidableEq, Repr

/-- The `MessageConnection::PacketSendResult` values returned by
`SendOutPacket`. -/
inductive PacketSendResult where
  | ok
  | socketClosed
  | socketFull
  | noMessages
  | throttled
  deriving DecidableEq, Repr

/-- The part of the `UDPMessageConnection` state read and written by
`SendOutPacket` and its pacing helpers. `freedMessages` is a ghost list
recording every `FreeMessage` call so that mutations of freed messages stay
observable. The priority ordering of `outboundQueue` is abstracted to list
order. -/
structure SendState where
  connectionState : ConnectionState
  bOutboundSendsPaused : Bool
  outboundQueue : List NetworkMessage
  fragmentedSends : FragmentedSendState
  datagramPacketIDCounter : ℕ
  lastSentInOrderPacketID : ℕ
  lastDatagramSendTime : ℕ
  retransmissionTimeout : ℚ
  datagramSendRate : ℚ
  outboundPacketAckTrack : List PacketAckTrack
  freedMessages : List NetworkMessage
  deriving DecidableEq, Repr

/-- The environment of one `SendOutPacket` call: socket conditions (write
openness, `BeginSend` and `EndSend` outcomes), the socket's maximum send
size, the current tick and the platform tick rates. -/
structure SendConfig where
  socketWriteOpen : Bool
  beginSendOk : Bool
  sendSuccess : Bool
  maxSendSize : ℕ
  now : ℕ
  ticksPerSec : ℕ
  ticksPerMillisecond : ℚ
  deriving DecidableEq, Repr

/-- The `(tick_t)(Clock::TicksPerSec() / datagramSendRate)` (the float division
truncated to an integer tick count), as computed in `CanSendOutNewDatagram`
and `NewDatagramSent` (`UDPMessageConnection.cpp:696,703`). -/
def datagramSendTickDelayOf (ticksPerSec : ℕ) (rate : ℚ) : ℕ :=
  (⌊(ticksPerSec : ℚ) / rate⌋).toNat

/-- The `UDPMessageConnection::CanSendOutNewDatagram`
(`UDPMessageConnection.cpp:692-699`): the elapsed ticks since the last
successful send reach one pacing slot. -/
def canSendOutNewDatagram (cfg : SendConfig) (s : SendState) : Bool :=
  cfg.now - s.lastDatagramSendTime ≥
    datagramSendTickDelayOf cfg.ticksPerSec s.datagramSendRate

/-- The `const size_t minSendSize = 1;` (`UDPMessageConnection.cpp:267`). -/
def minSendSize : ℕ := 1

/-- The transfer-id step of the gathering loop
(`UDPMessageConnection.cpp:298-314`): a message that is part of a
fragmented transfer whose id is still unassigned (−1) triggers
`AllocateFragmentedTransferID`; the allocation (modelled from the spec:
hand out the next free 8-bit id) fails when the pool is exhausted.
Returns the success flag and the updated fragmented-send table. -/
def allocateTransferIDIfNeeded (sends : FragmentedSendState)
    (msg : NetworkMessage) : Bool × FragmentedSendState :=
  match msg.transfer with
  | none => (true, sends)
  | some key =>
    match findTransfer key sends.transfers with
    | some t =>
      match t.id with
      | some _ => (true, sends)
      | none =>
        match sends.freeTransferIDs with
        | [] => (false, sends)
        | tid :: restIDs =>
          (true,
           { transfers := setTransferID key tid sends.transfers
             freeTransferIDs := restIDs })
    | none => (false, sends)
      -- unreachable: a fragmented message always references a live transfer

/-- Result of the message-gathering loop of `SendOutPacket`
(`UDPMessageConnection.cpp:286-336`): the messages serialized into the
datagram, the fragmented messages skipped for lack of a free transfer id,
the queue remainder, the obsolete messages freed, the accumulated
header flags, the smallest reliable message number of the batch, the packet
size and the updated fragmented-send table. -/
structure PackResult where
  serialized : List NetworkMessage
  skipped : List NetworkMessage
  remaining : List NetworkMessage
  freed : List NetworkMessage
  reliable : Bool
  inOrder : Bool
  smallestReliableMessageNumber : ℕ
  packetSizeInBytes : ℕ
  sends : FragmentedSendState
  deriving DecidableEq, Repr

/-- The message-gathering loop of `SendOutPacket`
(`UDPMessageConnection.cpp:286-336`): pop obsolete messages and free them;
allocate a transfer id for a fragmented message about to start (skipping
the message when the 8-bit pool is exhausted); stop (leaving the head in
the queue) when the next message would overflow `maxSendSize`; otherwise
serialize the message, accumulating the `reliable`/`inOrder` header flags
and the smallest reliable message number.
`cBytesForInOrderDeltaCounter = 2` extra bytes are charged for the first
in-order message (`UDPMessageConnection.cpp:279,317`). -/
def packLoop (maxSendSize : ℕ) (sends : FragmentedSendState)
    (packetSizeInBytes : ℕ) (reliable inOrder : Bool)
    (smallestReliableMessageNumber : ℕ) :
    List NetworkMessage → PackResult
  | [] =>
    { serialized := [], skipped := [], remaining := [], freed := []
      reliable := reliable, inOrder := inOrder
      smallestReliableMessageNumber := smallestReliableMessageNumber
      packetSizeInBytes := packetSizeInBytes, sends := sends }
  | msg :: rest =>
    if msg.obsolete then
      let r := packLoop maxSendSize sends packetSizeInBytes reliable inOrder
        smallestReliableMessageNumber rest
      { r with freed := msg :: r.freed }
    else
      -- `if (msg->transfer)`: allocate a transfer id if none is assigned yet.
      let alloc := allocateTransferIDIfNeeded sends msg
      if alloc.1 = false then
        let r := packLoop maxSendSize sends packetSizeInBytes reliable inOrder
          smallestReliableMessageNumber rest
        { r with skipped := msg :: r.skipped }
      else
        let sends' := alloc.2
        let cBytesForInOrderDeltaCounter := 2
        let totalMessageSize := getTotalDatagramPackedSize sends' msg +
          (if msg.inOrder ∧ ¬inOrder then cBytesForInOrderDeltaCounter else 0)
        if packetSizeInBytes ≥ minSendSize ∧
            packetSizeInBytes + totalMessageSize ≥ maxSendSize then
          { serialized := [], skipped := [], remaining := msg :: rest, freed := []
            reliable := reliable, inOrder := inOrder
            smallestReliableMessageNumber := smallestReliableMessageNumber
            packetSizeInBytes := packetSizeInBytes, sends := sends' }
        else
          let reliable' := reliable || msg.reliable
          let smallest' :=
            if msg.reliable then
              min smallestReliableMessageNumber msg.reliableMessageNumber
            else smallestReliableMessageNumber
          let inOrder' := inOrder || msg.inOrder
          let r := packLoop maxSendSize sends'
            (packetSizeInBytes + totalMessageSize) reliable' inOrder' smallest' rest
          { r with serialized := msg :: r.serialized }

/-- The gathering-loop invocation of `SendOutPacket`
(`UDPMessageConnection.cpp:278-336`): initial packet size 3 bytes (packet
id + flags), header flags clear, `smallestReliableMessageNumber =
0xFFFFFFFF`. -/
def sendOutPack (cfg : SendConfig) (s : SendState) : PackResult :=
  packLoop cfg.maxSendSize s.fragmentedSends 3 false false (2 ^ 32 - 1)
    s.outboundQueue

/-- The `UDPMessageConnection::SendOutPacket`
(`UDPMessageConnection.cpp:247-461`). Early exits: closed socket, paused
sends, empty queue, pacing gate, `BeginSend` failure. Otherwise the packing
loop runs (initial packet size 3 bytes,
`smallestReliableMessageNumber = 0xFFFFFFFF`), skipped messages are
re-queued, the datagram is written and `EndSend` invoked. On send failure
every serialized message is re-inserted into the outbound queue. On success
each serialized message's send count is incremented, the pacing tick
advances (`NewDatagramSent`), the packet-id counter advances, a
`PacketAckTrack` owning the reliable messages is inserted iff the datagram
was reliable (non-reliable serialized messages are freed), and a serialized
`MsgIdDisconnectAck` closes the connection. -/
def sendOutPacket (cfg : SendConfig) (s : SendState) :
    SendState × PacketSendResult :=
  if ¬cfg.socketWriteOpen then (s, PacketSendResult.socketClosed)
  else if s.bOutboundSendsPaused then (s, PacketSendResult.noMessages)
  else if s.outboundQueue = [] then (s, PacketSendResult.noMessages)
  else if ¬canSendOutNewDatagram cfg s then (s, PacketSendResult.throttled)
  else if ¬cfg.beginSendOk then (s, PacketSendResult.throttled)
  else
    let r := sendOutPack cfg s
    let queueAfterSkips := r.remaining ++ r.skipped
    let packetID := s.datagramPacketIDCounter
    let sentDisconnectAckMessage := r.serialized.any fun m => m.id = msgIdDisconnectAck
    if ¬cfg.sendSuccess then
      ({ s with
          outboundQueue := queueAfterSkips ++ r.serialized
          fragmentedSends := r.sends
          freedMessages := s.freedMessages ++ r.freed },
       PacketSendResult.socketFull)
    else
      let bumped := r.serialized.map fun m => { m with sendCount := m.sendCount + 1 }
      let afterSend : SendState :=
        { s with
            outboundQueue := queueAfterSkips
            fragmentedSends := r.sends
            freedMessages := s.freedMessages ++ r.freed
            lastDatagramSendTime :=
              newDatagramSent
                (datagramSendTickDelayOf cfg.ticksPerSec s.datagramSendRate)
                cfg.now s.lastDatagramSendTime
            lastSentInOrderPacketID := s.datagramPacketIDCounter
            datagramPacketIDCounter := addPacketID s.datagramPacketIDCounter 1 }
      -- `if (reliable)` inserts a `PacketAckTrack` owning the reliable
      -- messages and frees the unreliable ones; `else` frees them all.
      -- `if (sentDisconnectAckMessage)` assigns only `connectionState`.
      let final : SendState :=
        { afterSend with
            outboundPacketAckTrack := afterSend.outboundPacketAckTrack ++
              (if r.reliable then
                [{ packetID := packetID
                   messages := bumped.filter fun m => m.reliable
                   sentTick := cfg.now
                   timeoutTick := cfg.now +
                     (⌊s.retransmissionTimeout * cfg.ticksPerMillisecond⌋).toNat
                   sendCount := 1
                   datagramSendRate := s.datagramSendRate }]
              else [])
            freedMessages := afterSend.freedMessages ++
              (if r.reliable then bumped.filter fun m => ¬m.reliable else bumped)
            connectionState :=
              if sentDisconnectAckMessage then ConnectionState.connectionClosed
              else s.connectionState }
      (final, PacketSendResult.ok)

/-! ## Datagram parsing (`ExtractMessages`, C1, C9) -/

/-- The `DataDeserializer::VLEReadError` (= `0xFFFFFFFF`), the sentinel decoders
return for an unknown flag combination (spec §6). -/
def vleReadError : ℕ := 2 ^ 32 - 1

/-- One receiver-side reassembly buffer (spec data model
`ReassemblyBuffer`): transfer id, total fragment count, sparse list of
received fragment payloads keyed by fragment index. -/
structure ReassemblyBuffer where
  transferID : ℕ
  totalNumFragments : ℕ
  fragments : List (ℕ × List ℕ)
  deriving DecidableEq, Repr

/-- Modelled from the spec: the receiver-side `FragmentedReceiveManager`
(outside `src/`): "buffers incoming fragments keyed by transfer id,
assembles on completion" (spec §2). -/
structure FragmentedReceiveState where
  transfers : List ReassemblyBuffer
  deriving DecidableEq, Repr

/-- Modelled from the spec: `FragmentedReceiveManager::NewFragmentStartReceived`:
"Fragment-start allocates a reassembly buffer keyed by transfer id"
(spec §4.2 step 7); the first fragment has index 0. A buffer already open
under the same transfer id is left in place. -/
def newFragmentStartReceived (fr : FragmentedReceiveState)
    (transferID numTotalFragments : ℕ) (data : List ℕ) : FragmentedReceiveState :=
  if fr.transfers.any fun b => b.transferID = transferID then fr
  else
    { transfers := fr.transfers ++
        [{ transferID := transferID, totalNumFragments := numTotalFragments
           fragments := [(0, data)] }] }

/-- Modelled from the spec: `FragmentedReceiveManager::NewFragmentReceived`:
"later fragments append; when the last fragment arrives" the message is
ready (spec §4.2 step 7). Returns whether the transfer is now complete,
together with the updated buffers; a fragment for an unknown transfer id is
dropped. -/
def appendFragment (transferID fragmentNumber : ℕ) (data : List ℕ) :
    List ReassemblyBuffer → Bool × List ReassemblyBuffer
  | [] => (false, [])
  | b :: rest =>
    if b.transferID = transferID then
      let b' := { b with fragments := b.fragments ++ [(fragmentNumber, data)] }
      (b'.fragments.length = b'.totalNumFragments, b' :: rest)
    else
      let r := appendFragment transferID fragmentNumber data rest
      (r.1, b :: r.2)

/-- Modelled from the spec: `FragmentedReceiveManager::NewFragmentReceived`:
append the fragment to the buffer keyed by its transfer id and report
whether the transfer is now complete. -/
def newFragmentReceived (fr : FragmentedReceiveState)
    (transferID fragmentNumber : ℕ) (data : List ℕ) :
    Bool × FragmentedReceiveState :=
  let r := appendFragment transferID fragmentNumber data fr.transfers
  (r.1, { transfers := r.2 })

/-- Modelled from the spec: `FragmentedReceiveManager::AssembleMessage`:
concatenate the received fragment payloads in fragment-index order. -/
def assembleMessage (fr : FragmentedReceiveState) (transferID : ℕ) : List ℕ :=
  match fr.transfers.find? fun b => b.transferID = transferID with
  | none => []
  | some b => ((b.fragments.mergeSort fun x y => x.1 ≤ y.1).map Prod.snd).flatten

/-- Modelled from the spec: `FragmentedReceiveManager::FreeMessage`: release
the reassembly buffer of a completed transfer. -/
def freeReassemblyBuffer (fr : FragmentedReceiveState) (transferID : ℕ) :
    FragmentedReceiveState :=
  { transfers := fr.transfers.filter fun b => b.transferID ≠ transferID }

/-- One message of a datagram as consumed by the parsing loop of
`ExtractMessages` (`UDPMessageConnection.cpp:595-626`), in already-tokenized
form (the byte-level `DataDeserializer` is outside `src/`; the spec §6 wire
format fixes the fields and their presence conditions):
the four flag bits and the 11-bit content length of the 2-byte message
header; the reliable-delta VLE (meaningful iff `reliable`); the
total-fragment-count VLE (iff `fragmentStart`), the transfer-id byte (iff
fragment) and the fragment-index VLE (iff fragment and not start) — VLE
parse failures are represented by the `vleReadError` sentinel value; and
the raw bytes remaining at the reader position, of which the first
`contentLength` are the payload (fewer bytes than `contentLength` models
the truncated-datagram case). -/
structure DatagramMessage where
  fragmentStart : Bool
  fragmentBit : Bool
  inOrder : Bool
  reliable : Bool
  contentLength : ℕ
  reliableDelta : ℕ
  numTotalFragments : ℕ
  fragmentTransferID : ℕ
  fragmentNumber : ℕ
  payload : List ℕ
  deriving DecidableEq, Repr

/-- A UDP datagram as consumed by `ExtractMessages`, in tokenized form:
the total wire size (validated against the 3-byte minimum), the header
flags and 22-bit packet id, the reliable-message base number VLE
(meaningful iff `reliable`), and the contained messages. -/
structure Datagram where
  numBytes : ℕ
  inOrder : Bool
  reliable : Bool
  packetID : ℕ
  reliableMessageIndexBase : ℕ
  messages : List DatagramMessage
  deriving DecidableEq, Repr

/-- Insert-or-overwrite on the key-sorted pending-ack map
(`inboundPacketAckTrack[packetID]` at `UDPMessageConnection.cpp:558-563`
followed by the `sentTick` assignment). -/
def ackMapStore (key val : ℕ) : AckPendingMap → AckPendingMap
  | [] => [(key, val)]
  | (k, v) :: rest =>
    if key < k then (key, val) :: (k, v) :: rest
    else if key = k then (k, val) :: rest
    else (k, v) :: ackMapStore key val rest

/-- The part of the `UDPMessageConnection` state read and written by
`ExtractMessages`. `handledMessages` is a ghost list recording each
`HandleInboundMessage(packetID, data, size)` call (the hand-off of a decoded
payload to the inbound handler path). -/
structure ExtractState where
  inboundMessageQueueCapacityLeft : ℕ
  lastHeardTime : ℕ
  inboundPacketAckTrack : AckPendingMap
  receivedPacketIDs : List ℕ
  receivedReliableMessages : List ℕ
  fragmentedReceives : FragmentedReceiveState
  handledMessages : List (ℕ × List ℕ)
  deriving DecidableEq, Repr

/-- The per-message parsing loop of `ExtractMessages`
(`UDPMessageConnection.cpp:586-679`). Returns the updated state, the
`numMessagesReceived` counter and whether the loop ran to completion
(`false` = a malformed message aborted the remainder of the datagram).
For each message: an already-seen reliable message number marks the message
as a duplicate, a fresh one is inserted; a zero content length or missing
payload bytes abort; a fragment-start message with a bad or trivial
fragment count aborts, and otherwise opens a reassembly buffer unless the
message is a duplicate; a continuing fragment with an unreadable fragment
number aborts, and otherwise is handed to the reassembly manager (note:
regardless of the duplicate flag), dispatching the assembled payload when
the transfer completes; a plain non-duplicate message is handed straight to
the inbound handler path. -/
def extractLoop (packetID reliableMessageIndexBase : ℕ) :
    List DatagramMessage → ExtractState → ℕ → ExtractState × ℕ × Bool
  | [], s, numMessagesReceived => (s, numMessagesReceived, true)
  | m :: rest, s, numMessagesReceived =>
    let dupAndState : Bool × ExtractState :=
      if m.reliable then
        let reliableMessageNumber := reliableMessageIndexBase + m.reliableDelta
        if reliableMessageNumber ∈ s.receivedReliableMessages then (true, s)
        else
          (false,
           { s with receivedReliableMessages :=
               s.receivedReliableMessages ++ [reliableMessageNumber] })
      else (false, s)
    let duplicateMessage := dupAndState.1
    let s := dupAndState.2
    if m.contentLength = 0 then (s, numMessagesReceived, false)
    else if m.payload.length < m.contentLength then (s, numMessagesReceived, false)
    else
      let fragment := m.fragmentBit || m.fragmentStart
      let content := m.payload.take m.contentLength
      if m.fragmentStart then
        if m.numTotalFragments = vleReadError ∨ m.numTotalFragments ≤ 1 then
          (s, numMessagesReceived, false)
        else
          let s' :=
            if ¬duplicateMessage then
              { s with fragmentedReceives :=
                  (newFragmentStartReceived s.fragmentedReceives
                    m.fragmentTransferID m.numTotalFragments content) }
            else s
          extractLoop packetID reliableMessageIndexBase rest s' numMessagesReceived
      else if fragment then
        if m.fragmentNumber = vleReadError then (s, numMessagesReceived, false)
        else
          let ready := newFragmentReceived s.fragmentedReceives
            m.fragmentTransferID m.fragmentNumber content
          if ready.1 then
            let assembledData := assembleMessage ready.2 m.fragmentTransferID
            extractLoop packetID reliableMessageIndexBase rest
              { s with
                  fragmentedReceives := freeReassemblyBuffer ready.2 m.fragmentTransferID
                  handledMessages := s.handledMessages ++ [(packetID, assembledData)] }
              (numMessagesReceived + 1)
          else
            extractLoop packetID reliableMessageIndexBase rest
              { s with fragmentedReceives := ready.2 } numMessagesReceived
      else if ¬duplicateMessage then
        extractLoop packetID reliableMessageIndexBase rest
          { s with handledMessages := s.handledMessages ++ [(packetID, content)] }
          (numMessagesReceived + 1)
      else
        extractLoop packetID reliableMessageIndexBase rest s numMessagesReceived

/-- The `UDPMessageConnection::ExtractMessages(const char *data, size_t numBytes)`
(`UDPMessageConnection.cpp:526-685`). In order: drop the whole datagram
when fewer than 64 inbound-queue slots remain (before touching any state);
stamp `lastHeardTime`; reject datagrams shorter than 3 bytes; record an
inbound-ack entry for a reliable datagram; discard the body of an
already-received packet id (after the ack recording); run the per-message
loop; and, only if the loop completed, remember the packet id
(`AddReceivedPacketIDStats`). -/
def extractMessages (now : ℕ) (s : ExtractState) (d : Datagram) : ExtractState :=
  if s.inboundMessageQueueCapacityLeft < 64 then s
  else
    let s := { s with lastHeardTime := now }
    if d.numBytes < 3 then s
    else
      let s :=
        if d.reliable then
          { s with inboundPacketAckTrack := ackMapStore d.packetID now s.inboundPacketAckTrack }
        else s
      if d.packetID ∈ s.receivedPacketIDs then s
      else
        let r := extractLoop d.packetID
          (if d.reliable then d.reliableMessageIndexBase else 0) d.messages s 0
        if r.2.2 then
          { r.1 with receivedPacketIDs := r.1.receivedPacketIDs ++ [d.packetID] }
        else r.1

/-- A plain outbound message fixture (all fields zeroed) used by concrete
evaluations. -/
def plainMessage : NetworkMessage :=
  { id := 0, reliable := false, inOrder := false, priority := 0
    contentID := 0, messageNumber := 0, reliableMessageNumber := 0
    sendCount := 0, obsolete := false, transfer := none
    fragmentIndex := 0, dataSize := 0 }

/-- An OK connection with exactly 500 messages waiting in the accept queue. -/
def accept500State : AcceptState :=
  { connectionState := ConnectionState.connectionOK
    outboundAcceptQueue := List.replicate 500 plainMessage
    outboundQueue := []
    outboundContentIDMessages := [] }

/-- A socket environment for a concrete successful send: write open,
`BeginSend` and `EndSend` succeed, 1400-byte MTU, 1000 ticks/s. -/
def sendWitnessConfig : SendConfig :=
  { socketWriteOpen := true, beginSendOk := true, sendSuccess := true
    maxSendSize := 1400, now := 10000, ticksPerSec := 1000
    ticksPerMillisecond := 1 }

/-- A connection state holding one small reliable message ready to send. -/
def sendWitnessState : SendState :=
  { connectionState := ConnectionState.connectionOK
    bOutboundSendsPaused := false
    outboundQueue := [{ plainMessage with
      id := 42, reliable := true, dataSize := 3
      messageNumber := 7, reliableMessageNumber := 9 }]
    fragmentedSends := { transfers := [], freeTransferIDs := [] }
    datagramPacketIDCounter := 41
    lastSentInOrderPacketID := 0
    lastDatagramSendTime := 0
    retransmissionTimeout := 2000
    datagramSendRate := 10
    outboundPacketAckTrack := []
    freedMessages := [] }

/-- A continuing fragment (fragment bit set, not a fragment start) of
transfer 7, fragment index 1, carrying one payload byte, whose reliable
message number is `base + 0`. -/
def dupContinuingFragment : DatagramMessage :=
  { fragmentStart := false, fragmentBit := true, inOrder := false
    reliable := true, contentLength := 1, reliableDelta := 0
    numTotalFragments := 0, fragmentTransferID := 7, fragmentNumber := 1
    payload := [9] }

/-- A plain (non-fragment) reliable message with `reliableDelta = 0`. -/
def dupPlainMessage : DatagramMessage :=
  { fragmentStart := false, fragmentBit := false, inOrder := false
    reliable := true, contentLength := 2, reliableDelta := 0
    numTotalFragments := 0, fragmentTransferID := 0, fragmentNumber := 0
    payload := [1, 2] }

/-- A receiver state that has already seen reliable message number 5 and
holds an open reassembly buffer for transfer 7 (1 of 3 fragments). -/
def dupReceiverState : ExtractState :=
  { inboundMessageQueueCapacityLeft := 100
    lastHeardTime := 0
    inboundPacketAckTrack := []
    receivedPacketIDs := []
    receivedReliableMessages := [5]
    fragmentedReceives :=
      { transfers := [{ transferID := 7, totalNumFragments := 3
                        fragments := [(0, [1])] }] }
    handledMessages := [] }

/-- A reliable datagram with packet id 9 and reliable base number 5 whose
sole message is `dupContinuingFragment` — so that message's reliable
message number 5 is a duplicate. -/
def dupFragmentDatagram : Datagram :=
  { numBytes := 10, inOrder := false, reliable := true, packetID := 9
    reliableMessageIndexBase := 5, messages := [dupContinuingFragment] }

/-! ## Helper lemmas -/

theorem checkAndSave_connectionState (s : AcceptState) (msg : NetworkMessage) :
    (checkAndSaveOutboundMessageWithContentID s msg).connectionState =
      s.connectionState := by
  unfold checkAndSaveOutboundMessageWithContentID
  split
  · rfl
  · rcases assocFind (msg.id, msg.contentID) s.outboundContentIDMessages with _ | n
    · rfl
    · dsimp only
      split <;> rfl

theorem checkAndSave_acceptQueue (s : AcceptState) (msg : NetworkMessage) :
    (checkAndSaveOutboundMessageWithContentID s msg).outboundAcceptQueue =
      s.outboundAcceptQueue := by
  unfold checkAndSaveOutboundMessageWithContentID
  split
  · rfl
  · rcases assocFind (msg.id, msg.contentID) s.outboundContentIDMessages with _ | n
    · rfl
    · dsimp only
      split <;> rfl

theorem checkAndSave_queueLength (s : AcceptState) (msg : NetworkMessage) :
    (checkAndSaveOutboundMessageWithContentID s msg).outboundQueue.length =
      s.outboundQueue.length := by
  unfold checkAndSaveOutboundMessageWithContentID
  split
  · rfl
  · rcases assocFind (msg.id, msg.contentID) s.outboundContentIDMessages with _ | n
    · rfl
    · dsimp only
      split <;> simp [markObsolete]

theorem acceptLoop_lengths :
    ∀ (q : List NetworkMessage) (n : ℕ) (s : AcceptState),
      s.outboundAcceptQueue = q →
      (acceptLoop n s).outboundAcceptQueue.length =
          q.length - min q.length (n - 1) ∧
        (acceptLoop n s).outboundQueue.length =
          s.outboundQueue.length + min q.length (n - 1) := by
  intro q
  induction q with
  | nil =>
    intro n s hq
    match n with
    | 0 => simp [acceptLoop, hq]
    | 1 => simp [acceptLoop, hq]
    | (k + 2) => simp [acceptLoop, hq]
  | cons m rest ih =>
    intro n s hq
    match n with
    | 0 => simp [acceptLoop, hq]
    | 1 => simp [acceptLoop, hq]
    | (k + 2) =>
      have step :
          acceptLoop (k + 2) s =
            acceptLoop (k + 1)
              (checkAndSaveOutboundMessageWithContentID
                { s with
                  outboundAcceptQueue := rest
                  outboundQueue := s.outboundQueue ++ [m] } m) := by
        rw [acceptLoop, hq]
      rw [step]
      set s' := checkAndSaveOutboundMessageWithContentID
        { s with
          outboundAcceptQueue := rest
          outboundQueue := s.outboundQueue ++ [m] } m with hs'
      have haccept : s'.outboundAcceptQueue = rest := by
        rw [hs', checkAndSave_acceptQueue]
      have hout : s'.outboundQueue.length = s.outboundQueue.length + 1 := by
        rw [hs', checkAndSave_queueLength]
        simp
      obtain ⟨h1, h2⟩ := ih (k + 1) s' haccept
      constructor
      · rw [h1]
        simp only [List.length_cons]
        omega
      · rw [h2, hout]
        simp only [List.length_cons]
        omega

theorem collectAckBitsAux_length_le (base : ℕ) :
    ∀ (is : List ℕ) (p : AckPendingMap),
      (collectAckBitsAux base p is).2.1.length ≤ p.length := by
  intro is
  induction is with
  | nil => intro p; simp [collectAckBitsAux]
  | cons i rest ih =>
    intro p
    simp only [collectAckBitsAux]
    split
    · exact le_trans (ih _) (List.length_filter_le _ _)
    · exact ih p

theorem collectAckBitsAux_remaining_sublist (base : ℕ) :
    ∀ (is : List ℕ) (p : AckPendingMap),
      (collectAckBitsAux base p is).2.1.Sublist p := by
  intro is
  induction is with
  | nil => intro p; simp [collectAckBitsAux]
  | cons i rest ih =>
    intro p
    simp only [collectAckBitsAux]
    split
    · exact (ih _).trans (List.filter_sublist p)
    · exact ih p

theorem collectAckBitsAux_spec (base : ℕ) :
    ∀ (is : List ℕ) (p : AckPendingMap),
      (∀ i ∈ is, i < 32) → is.Nodup →
      (collectAckBitsAux base p is).1 < 2 ^ 32 ∧
      (∀ j, (collectAckBitsAux base p is).1.testBit j = true → j ∈ is) ∧
      ((is.filter fun i => (collectAckBitsAux base p is).1.testBit i).map
          fun i => addPacketID base (i + 1)) = (collectAckBitsAux base p is).2.2 := by
  intro is
  induction is with
  | nil =>
    intro p _ _
    refine ⟨by norm_num [collectAckBitsAux], ?_, by simp [collectAckBitsAux]⟩
    intro j hj
    simp [collectAckBitsAux, Nat.testBit_zero] at hj
  | cons i rest ih =>
    intro p hlt hnd
    have hi : i < 32 := hlt i (List.mem_cons_self i rest)
    have hrestlt : ∀ k ∈ rest, k < 32 := fun k hk => hlt k (List.mem_cons_of_mem i hk)
    have hinotin : i ∉ rest := (List.nodup_cons.mp hnd).1
    have hrestnd : rest.Nodup := (List.nodup_cons.mp hnd).2
    by_cases hk : ackMapHasKey (addPacketID base (i + 1)) p = true
    · obtain ⟨ihb, ihmem, ihfil⟩ :=
        ih (ackMapErase (addPacketID base (i + 1)) p) hrestlt hrestnd
      have hshift : (1 <<< i) = 2 ^ i := by
        rw [Nat.shiftLeft_eq, one_mul]
      have heq : collectAckBitsAux base p (i :: rest) =
          ((collectAckBitsAux base (ackMapErase (addPacketID base (i + 1)) p) rest).1 ||| (1 <<< i),
           (collectAckBitsAux base (ackMapErase (addPacketID base (i + 1)) p) rest).2.1,
           addPacketID base (i + 1) ::
             (collectAckBitsAux base (ackMapErase (addPacketID base (i + 1)) p) rest).2.2) := by
        simp only [collectAckBitsAux, hk, if_true]
      rw [heq]
      refine ⟨?_, ?_, ?_⟩
      · exact Nat.or_lt_two_pow ihb
          (by rw [hshift]; exact Nat.pow_lt_pow_right (by norm_num) hi)
      · intro j hj
        rw [Nat.testBit_or, Bool.or_eq_true] at hj
        rcases hj with hj | hj
        · exact List.mem_cons_of_mem i (ihmem j hj)
        · rw [hshift, Nat.testBit_two_pow] at hj
          have : i = j := by simpa using hj
          subst this
          exact List.mem_cons_self i rest
      · have hbitI :
            ((collectAckBitsAux base (ackMapErase (addPacketID base (i + 1)) p) rest).1 |||
              (1 <<< i)).testBit i = true := by
          rw [Nat.testBit_or, hshift, Nat.testBit_two_pow]
          simp
        have hbitRest : ∀ k ∈ rest,
            ((collectAckBitsAux base (ackMapErase (addPacketID base (i + 1)) p) rest).1 |||
              (1 <<< i)).testBit k =
              (collectAckBitsAux base (ackMapErase (addPacketID base (i + 1)) p) rest).1.testBit k := by
          intro k hkmem
          have hknei : i ≠ k := fun h => hinotin (h ▸ hkmem)
          rw [Nat.testBit_or, hshift, Nat.testBit_two_pow_of_ne hknei, Bool.or_false]
        rw [List.filter_cons_of_pos (by simp [hbitI])]
        rw [List.filter_congr
          (q := fun k =>
            (collectAckBitsAux base (ackMapErase (addPacketID base (i + 1)) p) rest).1.testBit k)
          (fun k hkmem => hbitRest k hkmem)]
        rw [List.map_cons]
        exact congrArg (addPacketID base (i + 1) :: ·) ihfil
    · obtain ⟨ihb, ihmem, ihfil⟩ := ih p hrestlt hrestnd
      have heq : collectAckBitsAux base p (i :: rest) = collectAckBitsAux base p rest := by
        simp only [collectAckBitsAux]
        rw [if_neg (by simpa using hk)]
      rw [heq]
      refine ⟨ihb, ?_, ?_⟩
      · intro j hj
        exact List.mem_cons_of_mem i (ihmem j hj)
      · have hbitI : (collectAckBitsAux base p rest).1.testBit i = false := by
          by_contra hcon
          exact hinotin (ihmem i (by simpa using hcon))
        rw [List.filter_cons_of_neg (by simp [hbitI])]
        exact ihfil

theorem ackMapErase_keys (id : ℕ) :
    ∀ p : AckPendingMap, (p.map Prod.fst).Nodup →
      (ackMapErase id p).map Prod.fst = (p.map Prod.fst).erase id := by
  intro p
  induction p with
  | nil => intro _; rfl
  | cons x rest ih =>
    intro hnd
    have hnd' : ((x :: rest).map Prod.fst).Nodup = (x.1 :: rest.map Prod.fst).Nodup := rfl
    rw [hnd'] at hnd
    obtain ⟨hxnotin, hndrest⟩ := List.nodup_cons.mp hnd
    by_cases hx : x.1 = id
    · have hfix : ackMapErase id rest = rest := by
        apply List.filter_eq_self.mpr
        intro a ha
        have : a.1 ∈ rest.map Prod.fst := List.mem_map.mpr ⟨a, ha, rfl⟩
        have : a.1 ≠ id := fun he => hxnotin (by rw [hx, ← he]; exact this)
        simpa using this
      have hlhs : ackMapErase id (x :: rest) = rest := by
        unfold ackMapErase
        rw [List.filter_cons_of_neg (by simpa using hx)]
        exact hfix
      rw [hlhs, List.map_cons, hx, List.erase_cons_head]
    · have hlhs : ackMapErase id (x :: rest) = x :: ackMapErase id rest := by
        unfold ackMapErase
        rw [List.filter_cons_of_pos (by simpa using hx)]
      rw [hlhs, List.map_cons, List.map_cons,
        List.erase_cons_tail (by simpa using hx), ih hndrest]

theorem ackMapHasKey_mem (id : ℕ) (p : AckPendingMap)
    (h : ackMapHasKey id p = true) : id ∈ p.map Prod.fst := by
  unfold ackMapHasKey at h
  rw [List.any_eq_true] at h
  obtain ⟨x, hx, hxe⟩ := h
  rw [List.mem_map]
  exact ⟨x, hx, by simpa using hxe.symm⟩

theorem collectAckBitsAux_erased_perm (base : ℕ) :
    ∀ (is : List ℕ) (p : AckPendingMap),
      (p.map Prod.fst).Nodup →
      ((collectAckBitsAux base p is).2.2 ++
          (collectAckBitsAux base p is).2.1.map Prod.fst).Perm (p.map Prod.fst) := by
  intro is
  induction is with
  | nil => intro p _; simp [collectAckBitsAux]
  | cons i rest ih =>
    intro p hnd
    by_cases hk : ackMapHasKey (addPacketID base (i + 1)) p = true
    · have heq : collectAckBitsAux base p (i :: rest) =
          ((collectAckBitsAux base (ackMapErase (addPacketID base (i + 1)) p) rest).1 ||| (1 <<< i),
           (collectAckBitsAux base (ackMapErase (addPacketID base (i + 1)) p) rest).2.1,
           addPacketID base (i + 1) ::
             (collectAckBitsAux base (ackMapErase (addPacketID base (i + 1)) p) rest).2.2) := by
        simp only [collectAckBitsAux, hk, if_true]
      rw [heq]
      have hmem : addPacketID base (i + 1) ∈ p.map Prod.fst := ackMapHasKey_mem _ _ hk
      have hkeys : (ackMapErase (addPacketID base (i + 1)) p).map Prod.fst =
          (p.map Prod.fst).erase (addPacketID base (i + 1)) :=
        ackMapErase_keys _ p hnd
      have hndE : ((ackMapErase (addPacketID base (i + 1)) p).map Prod.fst).Nodup := by
        rw [hkeys]; exact hnd.erase _
      have ihp := ih (ackMapErase (addPacketID base (i + 1)) p) hndE
      rw [hkeys] at ihp
      rw [List.cons_append]
      exact (ihp.cons (addPacketID base (i + 1))).trans
        (List.perm_cons_erase hmem).symm
    · have heq : collectAckBitsAux base p (i :: rest) = collectAckBitsAux base p rest := by
        simp only [collectAckBitsAux]
        rw [if_neg (by simpa using hk)]
      rw [heq]
      exact ih p hnd

theorem ackMessageIDCount_le_33 (m : ℕ × ℕ) : ackMessageIDCount m ≤ 33 := by
  unfold ackMessageIDCount ackMessageAckedIDs
  simp only [List.length_cons, List.length_map]
  have h := List.length_filter_le (fun i => m.2.testBit i) (List.range 32)
  simp only [List.length_range] at h
  omega

theorem sendPacketAckMessage_acked_perm :
    ∀ p : AckPendingMap, (p.map Prod.fst).Nodup →
      (((sendPacketAckMessage p).map ackMessageAckedIDs).flatten).Perm
        (p.map Prod.fst) := by
  have main : ∀ (n : ℕ) (p : AckPendingMap), p.length ≤ n →
      (p.map Prod.fst).Nodup →
      (((sendPacketAckMessage p).map ackMessageAckedIDs).flatten).Perm
        (p.map Prod.fst) := by
    intro n
    induction n with
    | zero =>
      intro p hlen _
      have hp : p = [] := List.eq_nil_of_length_eq_zero (Nat.le_zero.mp hlen)
      subst hp
      simp [sendPacketAckMessage]
    | succ n ih =>
      intro p hlen hnd
      match p with
      | [] => simp [sendPacketAckMessage]
      | (base, t) :: rest =>
        have hstep : sendPacketAckMessage ((base, t) :: rest) =
            (base, (collectAckBitsAux base rest (List.range 32)).1) ::
              sendPacketAckMessage (collectAckBitsAux base rest (List.range 32)).2.1 := by
          rw [sendPacketAckMessage]
        rw [hstep]
        simp only [List.map_cons, List.flatten_cons]
        have hcons : ((base, t) :: rest).map Prod.fst = base :: rest.map Prod.fst := rfl
        rw [hcons] at hnd
        obtain ⟨hbasenotin, hnd'⟩ := List.nodup_cons.mp hnd
        have hspec := collectAckBitsAux_spec base (List.range 32) rest
          (fun i hi => List.mem_range.mp hi) (List.nodup_range 32)
        have hacked :
            ackMessageAckedIDs (base, (collectAckBitsAux base rest (List.range 32)).1) =
              base :: (collectAckBitsAux base rest (List.range 32)).2.2 :=
          congrArg (base :: ·) hspec.2.2
        rw [hacked]
        have hsub := collectAckBitsAux_remaining_sublist base (List.range 32) rest
        have hnd_rem :
            ((collectAckBitsAux base rest (List.range 32)).2.1.map Prod.fst).Nodup :=
          hnd'.sublist (hsub.map Prod.fst)
        have hlen2 : (collectAckBitsAux base rest (List.range 32)).2.1.length ≤ n := by
          have h1 := collectAckBitsAux_length_le base (List.range 32) rest
          simp only [List.length_cons] at hlen
          omega
        have hIH := ih _ hlen2 hnd_rem
        have hperm := collectAckBitsAux_erased_perm base (List.range 32) rest hnd'
        rw [List.cons_append]
        exact List.Perm.cons base ((hIH.append_left _).trans hperm)
  intro p hnd
  exact main p.length p le_rfl hnd

theorem packLoop_reliable (maxSendSize : ℕ) :
    ∀ (q : List NetworkMessage) (sends : FragmentedSendState) (ps : ℕ)
      (rel io : Bool) (sm : ℕ),
      (packLoop maxSendSize sends ps rel io sm q).reliable =
        (rel || (packLoop maxSendSize sends ps rel io sm q).serialized.any
          fun m => m.reliable) := by
  intro q
  induction q with
  | nil => intro sends ps rel io sm; simp [packLoop]
  | cons msg rest ih =>
    intro sends ps rel io sm
    by_cases hob : msg.obsolete = true
    · have heq : packLoop maxSendSize sends ps rel io sm (msg :: rest) =
          { packLoop maxSendSize sends ps rel io sm rest with
            freed := msg :: (packLoop maxSendSize sends ps rel io sm rest).freed } := by
        simp only [packLoop]
        rw [if_pos hob]
      rw [heq]
      exact ih sends ps rel io sm
    · by_cases haf : (allocateTransferIDIfNeeded sends msg).1 = false
      · have heq : packLoop maxSendSize sends ps rel io sm (msg :: rest) =
            { packLoop maxSendSize sends ps rel io sm rest with
              skipped := msg :: (packLoop maxSendSize sends ps rel io sm rest).skipped } := by
          simp only [packLoop]
          rw [if_neg hob, if_pos haf]
        rw [heq]
        exact ih sends ps rel io sm
      · set sends' := (allocateTransferIDIfNeeded sends msg).2 with hsends'
        set t := getTotalDatagramPackedSize sends' msg +
          (if msg.inOrder ∧ ¬io then 2 else 0) with ht
        by_cases hsz : ps ≥ minSendSize ∧ ps + t ≥ maxSendSize
        · have heq : packLoop maxSendSize sends ps rel io sm (msg :: rest) =
              { serialized := [], skipped := [], remaining := msg :: rest, freed := []
                reliable := rel, inOrder := io
                smallestReliableMessageNumber := sm
                packetSizeInBytes := ps, sends := sends' } := by
            simp only [packLoop]
            rw [if_neg hob, if_neg haf, ← hsends', ← ht, if_pos hsz]
          rw [heq]
          simp
        · have heq : packLoop maxSendSize sends ps rel io sm (msg :: rest) =
              { packLoop maxSendSize sends' (ps + t) (rel || msg.reliable)
                  (io || msg.inOrder)
                  (if msg.reliable then min sm msg.reliableMessageNumber else sm) rest with
                serialized := msg ::
                  (packLoop maxSendSize sends' (ps + t) (rel || msg.reliable)
                    (io || msg.inOrder)
                    (if msg.reliable then min sm msg.reliableMessageNumber else sm)
                    rest).serialized } := by
            simp only [packLoop]
            rw [if_neg hob, if_neg haf, ← hsends', ← ht, if_neg hsz]
          rw [heq]
          have := ih sends' (ps + t) (rel || msg.reliable) (io || msg.inOrder)
            (if msg.reliable then min sm msg.reliableMessageNumber else sm)
          simp only [List.any_cons]
          rw [this]
          rw [Bool.or_assoc]

theorem pingReplyScan_rtt (tpm : ℚ) (now : ℕ) (pingID : ℕ) (rtt : ℚ) :
    ∀ (l : List PingTrack) (track : PingTrack),
      (l.find? fun t => decide (t.pingID = pingID ∧ t.replyReceived = false)) =
          some track →
      (pingReplyScan tpm now pingID rtt l).2 =
        1 / 2 * ticksToMilliseconds tpm (now - track.pingSentTick) +
          1 * (1 / 2) * rtt := by
  intro l
  induction l with
  | nil => intro track h; simp [List.find?] at h
  | cons t rest ih =>
    intro track h
    by_cases hp : t.pingID = pingID ∧ t.replyReceived = false
    · have ht : t = track := by
        simpa [List.find?_cons, hp] using h
      subst ht
      simp [pingReplyScan, hp]
    · have h' : (rest.find? fun t =>
          decide (t.pingID = pingID ∧ t.replyReceived = false)) = some track := by
        simpa [List.find?_cons, hp] using h
      simp only [pingReplyScan, if_neg hp]
      exact ih track h'

/-! ## Claim theorems -/

/-- C3: the retransmission timeout is claimed to lie in [1000 ms, 5000 ms]
in every reachable state including the initial one. The code violates this
at the initial state: `Initialize()` sets `retransmissionTimeout = 3.f`
(milliseconds, as used at `UDPMessageConnection.cpp:434`), where the spec
(§6, "initial RTO 3000") and the RFC 2988 comment in the source intend
3000 ms. After every `UpdateRTOCounterOnPacketAck` and every
`UpdateRTOCounterOnPacketLoss` the clamp does keep the value inside the
claimed bounds. -/
theorem rto_initial_state_violates_bounds_updates_respect_them :
    RTOReachable rtoInitState ∧
    rtoInitState.retransmissionTimeout = 3 ∧
    rtoInitState.retransmissionTimeout < minRTOTimeoutValue ∧
    (∀ (s : RTOState) (rtt : ℚ),
      minRTOTimeoutValue ≤ (updateRTOCounterOnPacketAck s rtt).retransmissionTimeout ∧
      (updateRTOCounterOnPacketAck s rtt).retransmissionTimeout ≤ maxRTOTimeoutValue) ∧
    (∀ s : RTOState,
      minRTOTimeoutValue ≤ (updateRTOCounterOnPacketLoss s).retransmissionTimeout ∧
      (updateRTOCounterOnPacketLoss s).retransmissionTimeout ≤ maxRTOTimeoutValue) := by
  refine ⟨RTOReachable.init, rfl, ?_, ?_, ?_⟩
  · norm_num [rtoInitState, minRTOTimeoutValue]
  · intro s rtt
    unfold updateRTOCounterOnPacketAck
    constructor
    · exact le_min (by norm_num [minRTOTimeoutValue, maxRTOTimeoutValue])
        (le_max_left _ _)
    · exact min_le_left _ _
  · intro s
    unfold updateRTOCounterOnPacketLoss
    constructor
    · exact le_min (by norm_num [minRTOTimeoutValue, maxRTOTimeoutValue])
        (le_max_left _ _)
    · exact min_le_left _ _

/-- C6 (amended): after a successful send, `NewDatagramSent` advances the
last-send tick by one pacing slot, unless the engine has fallen twenty or
more slots behind (`now - last ≥ 20 · slot`, i.e. the integer slot count
reaches 20), in which case it jumps to `now`. -/
theorem newDatagramSent_advance_or_jump (delay now last : ℕ) (h : 0 < delay) :
    newDatagramSent delay now last =
      if 20 * delay ≤ now - last then now else last + delay := by
  by_cases hc : now - last < 20 * delay
  · have h1 : (now - last) / delay < 20 := (Nat.div_lt_iff_lt_mul h).mpr hc
    rw [newDatagramSent, if_pos h1, if_neg (by omega)]
  · have h1 : ¬((now - last) / delay < 20) := fun hlt =>
      hc ((Nat.div_lt_iff_lt_mul h).mp hlt)
    rw [newDatagramSent, if_neg h1, if_pos (by omega)]

theorem newDatagramSent_advance_or_jump_witness :
    (0 : ℕ) < 1000 ∧
    newDatagramSent 1000 500 0 = (if 20 * 1000 ≤ 500 - 0 then 500 else 0 + 1000) :=
  ⟨by decide, newDatagramSent_advance_or_jump 1000 500 0 (by decide)⟩

/-- C6 counterexample: with a 1000-tick slot and a last-send tick exactly
twenty slots in the past (`now - last = 20000`), the code jumps to `now`
(20000) while the claim ("more than twenty slots behind", strictly) demands
an advance by one slot (to 1000). -/
theorem newDatagramSent_boundary_counterexample :
    newDatagramSent 1000 20000 0 = 20000 ∧
    newDatagramSentSpec 1000 20000 0 = 1000 ∧
    newDatagramSent 1000 20000 0 ≠ newDatagramSentSpec 1000 20000 0 := by
  decide

/-- C9: when fewer than 64 slots of inbound-queue capacity remain,
`ExtractMessages` drops the whole datagram before touching any state: no
message is handled or buffered, no inbound-ack entry is recorded, the
received-packet-id set is untouched and `lastHeardTime` is not updated. -/
theorem extractMessages_capacity_guard (now : ℕ) (s : ExtractState) (d : Datagram)
    (h : s.inboundMessageQueueCapacityLeft < 64) :
    extractMessages now s d = s := by
  unfold extractMessages
  rw [if_pos h]

theorem extractMessages_capacity_guard_witness :
    (63 : ℕ) < 64 ∧
    extractMessages 7
      { inboundMessageQueueCapacityLeft := 63
        lastHeardTime := 0
        inboundPacketAckTrack := []
        receivedPacketIDs := []
        receivedReliableMessages := []
        fragmentedReceives := { transfers := [] }
        handledMessages := [] }
      { numBytes := 5
        inOrder := false
        reliable := true
        packetID := 2
        reliableMessageIndexBase := 0
        messages := [] } =
      { inboundMessageQueueCapacityLeft := 63
        lastHeardTime := 0
        inboundPacketAckTrack := []
        receivedPacketIDs := []
        receivedReliableMessages := []
        fragmentedReceives := { transfers := [] }
        handledMessages := [] } :=
  ⟨by decide, extractMessages_capacity_guard 7 _ _ (by decide)⟩

/-- C8 (amended): when the connection state is OK and the accept queue
holds `N` messages, one call to `AcceptOutboundMessages` moves exactly
`min(N, 499)` messages into the send priority queue — not 500, because the
loop condition `--numMessagesToAcceptPerFrame > 0` pre-decrements the
counter of 500 before the first message is taken. -/
theorem acceptOutboundMessages_drains_min_499 (s : AcceptState)
    (h : s.connectionState = ConnectionState.connectionOK) :
    (acceptOutboundMessages s).outboundQueue.length =
      s.outboundQueue.length + min s.outboundAcceptQueue.length 499 ∧
    (acceptOutboundMessages s).outboundAcceptQueue.length =
      s.outboundAcceptQueue.length - min s.outboundAcceptQueue.length 499 := by
  unfold acceptOutboundMessages
  rw [if_neg (by simp [h])]
  obtain ⟨h1, h2⟩ := acceptLoop_lengths s.outboundAcceptQueue 500 s rfl
  exact ⟨h2, h1⟩

theorem acceptOutboundMessages_drains_min_499_witness :
    ({ connectionState := ConnectionState.connectionOK
       outboundAcceptQueue := [
        { id := 11, reliable := false, inOrder := false, priority := 0
          contentID := 0, messageNumber := 0, reliableMessageNumber := 0
          sendCount := 0, obsolete := false, transfer := none
          fragmentIndex := 0, dataSize := 4 },
        { id := 12, reliable := true, inOrder := false, priority := 3
          contentID := 0, messageNumber := 1, reliableMessageNumber := 0
          sendCount := 0, obsolete := false, transfer := none
          fragmentIndex := 0, dataSize := 2 }]
       outboundQueue := []
       outboundContentIDMessages := [] } : AcceptState).connectionState =
        ConnectionState.connectionOK ∧
    (acceptOutboundMessages
      { connectionState := ConnectionState.connectionOK
        outboundAcceptQueue := [
          { id := 11, reliable := false, inOrder := false, priority := 0
            contentID := 0, messageNumber := 0, reliableMessageNumber := 0
            sendCount := 0, obsolete := false, transfer := none
            fragmentIndex := 0, dataSize := 4 },
          { id := 12, reliable := true, inOrder := false, priority := 3
            contentID := 0, messageNumber := 1, reliableMessageNumber := 0
            sendCount := 0, obsolete := false, transfer := none
            fragmentIndex := 0, dataSize := 2 }]
        outboundQueue := []
        outboundContentIDMessages := [] }).outboundQueue.length =
      ([] : List NetworkMessage).length + min 2 499 :=
  ⟨rfl, (acceptOutboundMessages_drains_min_499 _ rfl).1⟩

/-- C8 counterexample: with the connection OK and exactly 500 messages in
the accept queue, one call to `AcceptOutboundMessages` moves only 499 of
them into the send priority queue, not the `min(500, 500) = 500` the claim
states. -/
theorem acceptOutboundMessages_500_drains_only_499 :
    (acceptOutboundMessages accept500State).outboundQueue.length = 499 ∧
    (499 : ℕ) ≠ min 500 500 := by
  constructor
  · unfold acceptOutboundMessages
    rw [if_neg (by decide)]
    obtain ⟨-, h2⟩ :=
      acceptLoop_lengths (List.replicate 500 plainMessage) 500 accept500State rfl
    rw [h2, show accept500State.outboundQueue.length = 0 from rfl,
      List.length_replicate]
    omega
  · decide

/-- C2: once `SendOutPacket` reaches the socket send (socket write-open,
sends not paused, queue nonempty, pacing gate open, `BeginSend` succeeded):
on send failure every serialized message is re-inserted into the outbound
queue unchanged (no send count moves), the packet-id counter, ack tracker
and pacing tick stay put; on success each serialized message's send count
is incremented by one, the pacing tick advances by `NewDatagramSent`, the
packet-id counter advances by one, and a `PacketAckTrack` for the datagram
is created iff at least one serialized message was reliable (the reliable
ones owned by the track, the rest freed). -/
theorem sendOutPacket_effects (cfg : SendConfig) (s : SendState)
    (hopen : cfg.socketWriteOpen = true)
    (hpause : s.bOutboundSendsPaused = false)
    (hq : s.outboundQueue ≠ [])
    (hcan : canSendOutNewDatagram cfg s = true)
    (hbegin : cfg.beginSendOk = true) :
    (cfg.sendSuccess = false →
      (sendOutPacket cfg s).1.outboundQueue =
        ((sendOutPack cfg s).remaining ++ (sendOutPack cfg s).skipped) ++
          (sendOutPack cfg s).serialized ∧
      (sendOutPacket cfg s).1.datagramPacketIDCounter = s.datagramPacketIDCounter ∧
      (sendOutPacket cfg s).1.outboundPacketAckTrack = s.outboundPacketAckTrack ∧
      (sendOutPacket cfg s).1.lastDatagramSendTime = s.lastDatagramSendTime ∧
      (sendOutPacket cfg s).1.freedMessages =
        s.freedMessages ++ (sendOutPack cfg s).freed ∧
      (sendOutPacket cfg s).2 = PacketSendResult.socketFull) ∧
    (cfg.sendSuccess = true →
      (sendOutPacket cfg s).1.outboundQueue =
        (sendOutPack cfg s).remaining ++ (sendOutPack cfg s).skipped ∧
      (sendOutPacket cfg s).1.datagramPacketIDCounter =
        addPacketID s.datagramPacketIDCounter 1 ∧
      (sendOutPacket cfg s).1.lastDatagramSendTime =
        newDatagramSent (datagramSendTickDelayOf cfg.ticksPerSec s.datagramSendRate)
          cfg.now s.lastDatagramSendTime ∧
      ((sendOutPack cfg s).reliable = true ↔
        ∃ m ∈ (sendOutPack cfg s).serialized, m.reliable = true) ∧
      ((sendOutPack cfg s).reliable = true →
        (sendOutPacket cfg s).1.outboundPacketAckTrack =
          s.outboundPacketAckTrack ++
            [{ packetID := s.datagramPacketIDCounter
               messages := ((sendOutPack cfg s).serialized.map fun m =>
                   { m with sendCount := m.sendCount + 1 }).filter fun m => m.reliable
               sentTick := cfg.now
               timeoutTick := cfg.now +
                 (⌊s.retransmissionTimeout * cfg.ticksPerMillisecond⌋).toNat
               sendCount := 1
               datagramSendRate := s.datagramSendRate }] ∧
        (sendOutPacket cfg s).1.freedMessages =
          (s.freedMessages ++ (sendOutPack cfg s).freed) ++
            (((sendOutPack cfg s).serialized.map fun m =>
              { m with sendCount := m.sendCount + 1 }).filter fun m => ¬m.reliable)) ∧
      ((sendOutPack cfg s).reliable = false →
        (sendOutPacket cfg s).1.outboundPacketAckTrack = s.outboundPacketAckTrack ∧
        (sendOutPacket cfg s).1.freedMessages =
          (s.freedMessages ++ (sendOutPack cfg s).freed) ++
            ((sendOutPack cfg s).serialized.map fun m =>
              { m with sendCount := m.sendCount + 1 })) ∧
      (sendOutPacket cfg s).2 = PacketSendResult.ok) := by
  have hguards : sendOutPacket cfg s =
      (let r := sendOutPack cfg s
       let queueAfterSkips := r.remaining ++ r.skipped
       let packetID := s.datagramPacketIDCounter
       let sentDisconnectAckMessage := r.serialized.any fun m => m.id = msgIdDisconnectAck
       if ¬cfg.sendSuccess then
        ({ s with
            outboundQueue := queueAfterSkips ++ r.serialized
            fragmentedSends := r.sends
            freedMessages := s.freedMessages ++ r.freed },
         PacketSendResult.socketFull)
       else
        let bumped := r.serialized.map fun m => { m with sendCount := m.sendCount + 1 }
        let afterSend : SendState :=
          { s with
              outboundQueue := queueAfterSkips
              fragmentedSends := r.sends
              freedMessages := s.freedMessages ++ r.freed
              lastDatagramSendTime :=
                newDatagramSent
                  (datagramSendTickDelayOf cfg.ticksPerSec s.datagramSendRate)
                  cfg.now s.lastDatagramSendTime
              lastSentInOrderPacketID := s.datagramPacketIDCounter
              datagramPacketIDCounter := addPacketID s.datagramPacketIDCounter 1 }
        let final : SendState :=
          { afterSend with
              outboundPacketAckTrack := afterSend.outboundPacketAckTrack ++
                (if r.reliable then
                  [{ packetID := packetID
                     messages := bumped.filter fun m => m.reliable
                     sentTick := cfg.now
                     timeoutTick := cfg.now +
                       (⌊s.retransmissionTimeout * cfg.ticksPerMillisecond⌋).toNat
                     sendCount := 1
                     datagramSendRate := s.datagramSendRate }]
                else [])
              freedMessages := afterSend.freedMessages ++
                (if r.reliable then bumped.filter fun m => ¬m.reliable else bumped)
              connectionState :=
                if sentDisconnectAckMessage then ConnectionState.connectionClosed
                else s.connectionState }
        (final, PacketSendResult.ok)) := by
    unfold sendOutPacket
    rw [if_neg (by simp [hopen]), if_neg (by simp [hpause]), if_neg hq,
      if_neg (by simp [hcan]), if_neg (by simp [hbegin])]
  constructor
  · intro hfail
    rw [hguards]
    simp only []
    rw [if_pos (by simp [hfail])]
    exact ⟨rfl, rfl, rfl, rfl, rfl, rfl⟩
  · intro hsucc
    rw [hguards]
    simp only []
    rw [if_neg (by simp [hsucc])]
    refine ⟨rfl, rfl, rfl, ?_, ?_, ?_, rfl⟩
    · have hr := packLoop_reliable cfg.maxSendSize s.outboundQueue
        s.fragmentedSends 3 false false (2 ^ 32 - 1)
      rw [show (sendOutPack cfg s).reliable =
        (packLoop cfg.maxSendSize s.fragmentedSends 3 false false (2 ^ 32 - 1)
          s.outboundQueue).reliable from rfl, hr]
      simp only [Bool.false_or]
      rw [List.any_eq_true]
      constructor
      · rintro ⟨m, hm, hmr⟩
        exact ⟨m, hm, by simpa using hmr⟩
      · rintro ⟨m, hm, hmr⟩
        exact ⟨m, hm, by simpa using hmr⟩
    · intro hrel
      constructor <;>
        · split <;> first | rfl | simp_all
    · intro hrel
      constructor <;>
        · split <;> first | rfl | simp_all

theorem sendOutPacket_effects_witness :
    sendWitnessConfig.socketWriteOpen = true ∧
    sendWitnessState.bOutboundSendsPaused = false ∧
    sendWitnessState.outboundQueue ≠ [] ∧
    canSendOutNewDatagram sendWitnessConfig sendWitnessState = true ∧
    sendWitnessConfig.beginSendOk = true ∧
    ((sendWitnessConfig.sendSuccess = false →
      (sendOutPacket sendWitnessConfig sendWitnessState).1.outboundQueue =
        ((sendOutPack sendWitnessConfig sendWitnessState).remaining ++
            (sendOutPack sendWitnessConfig sendWitnessState).skipped) ++
          (sendOutPack sendWitnessConfig sendWitnessState).serialized ∧
      (sendOutPacket sendWitnessConfig sendWitnessState).1.datagramPacketIDCounter =
        sendWitnessState.datagramPacketIDCounter ∧
      (sendOutPacket sendWitnessConfig sendWitnessState).1.outboundPacketAckTrack =
        sendWitnessState.outboundPacketAckTrack ∧
      (sendOutPacket sendWitnessConfig sendWitnessState).1.lastDatagramSendTime =
        sendWitnessState.lastDatagramSendTime ∧
      (sendOutPacket sendWitnessConfig sendWitnessState).1.freedMessages =
        sendWitnessState.freedMessages ++
          (sendOutPack sendWitnessConfig sendWitnessState).freed ∧
      (sendOutPacket sendWitnessConfig sendWitnessState).2 =
        PacketSendResult.socketFull) ∧
    (sendWitnessConfig.sendSuccess = true →
      (sendOutPacket sendWitnessConfig sendWitnessState).1.outboundQueue =
        (sendOutPack sendWitnessConfig sendWitnessState).remaining ++
          (sendOutPack sendWitnessConfig sendWitnessState).skipped ∧
      (sendOutPacket sendWitnessConfig sendWitnessState).1.datagramPacketIDCounter =
        addPacketID sendWitnessState.datagramPacketIDCounter 1 ∧
      (sendOutPacket sendWitnessConfig sendWitnessState).1.lastDatagramSendTime =
        newDatagramSent
          (datagramSendTickDelayOf sendWitnessConfig.ticksPerSec
            sendWitnessState.datagramSendRate)
          sendWitnessConfig.now sendWitnessState.lastDatagramSendTime ∧
      ((sendOutPack sendWitnessConfig sendWitnessState).reliable = true ↔
        ∃ m ∈ (sendOutPack sendWitnessConfig sendWitnessState).serialized,
          m.reliable = true) ∧
      ((sendOutPack sendWitnessConfig sendWitnessState).reliable = true →
        (sendOutPacket sendWitnessConfig sendWitnessState).1.outboundPacketAckTrack =
          sendWitnessState.outboundPacketAckTrack ++
            [{ packetID := sendWitnessState.datagramPacketIDCounter
               messages := ((sendOutPack sendWitnessConfig sendWitnessState).serialized.map
                   fun m => { m with sendCount := m.sendCount + 1 }).filter
                 fun m => m.reliable
               sentTick := sendWitnessConfig.now
               timeoutTick := sendWitnessConfig.now +
                 (⌊sendWitnessState.retransmissionTimeout *
                   sendWitnessConfig.ticksPerMillisecond⌋).toNat
               sendCount := 1
               datagramSendRate := sendWitnessState.datagramSendRate }] ∧
        (sendOutPacket sendWitnessConfig sendWitnessState).1.freedMessages =
          (sendWitnessState.freedMessages ++
              (sendOutPack sendWitnessConfig sendWitnessState).freed) ++
            (((sendOutPack sendWitnessConfig sendWitnessState).serialized.map
              fun m => { m with sendCount := m.sendCount + 1 }).filter
              fun m => ¬m.reliable)) ∧
      ((sendOutPack sendWitnessConfig sendWitnessState).reliable = false →
        (sendOutPacket sendWitnessConfig sendWitnessState).1.outboundPacketAckTrack =
          sendWitnessState.outboundPacketAckTrack ∧
        (sendOutPacket sendWitnessConfig sendWitnessState).1.freedMessages =
          (sendWitnessState.freedMessages ++
              (sendOutPack sendWitnessConfig sendWitnessState).freed) ++
            ((sendOutPack sendWitnessConfig sendWitnessState).serialized.map
              fun m => { m with sendCount := m.sendCount + 1 })) ∧
      (sendOutPacket sendWitnessConfig sendWitnessState).2 = PacketSendResult.ok)) :=
  ⟨rfl, rfl, by decide,
   by norm_num [canSendOutNewDatagram, datagramSendTickDelayOf,
     sendWitnessConfig, sendWitnessState],
   rfl,
   sendOutPacket_effects sendWitnessConfig sendWitnessState rfl rfl
     (by decide)
     (by norm_num [canSendOutNewDatagram, datagramSendTickDelayOf,
       sendWitnessConfig, sendWitnessState])
     rfl⟩

/-- C4 (amended): `PerformPacketAckSends` emits at least one
`MsgIdPacketAck` message iff acks are pending and either the oldest pending
entry is at least 33 ms old (`≥`, not strictly older) or at least 33
entries are pending; each emitted ack message acknowledges at most 33
packet ids; and when messages are emitted the whole pending set is erased —
the acknowledged ids are exactly the pending packet ids. -/
theorem performPacketAckSends_spec (tpm : ℚ) (now : ℕ) (pending : AckPendingMap)
    (hnd : (pending.map Prod.fst).Nodup) :
    ((performPacketAckSends tpm now pending).2 ≠ [] ↔
      pending ≠ [] ∧
        (maxAckDelay ≤ timespanToMillisecondsF tpm (pending.head?.getD (0, 0)).2 now ∨
          33 ≤ pending.length)) ∧
    (∀ m ∈ (performPacketAckSends tpm now pending).2, ackMessageIDCount m ≤ 33) ∧
    ((performPacketAckSends tpm now pending).2 ≠ [] →
      (performPacketAckSends tpm now pending).1 = [] ∧
      (((performPacketAckSends tpm now pending).2.map ackMessageAckedIDs).flatten).Perm
        (pending.map Prod.fst)) ∧
    ((performPacketAckSends tpm now pending).2 = [] →
      (performPacketAckSends tpm now pending).1 = pending) := by
  match pending with
  | [] =>
    refine ⟨by simp [performPacketAckSends], ?_, ?_, ?_⟩
    · intro m hm
      simp [performPacketAckSends] at hm
    · intro hne
      simp [performPacketAckSends] at hne
    · intro _
      simp [performPacketAckSends]
  | (k, st) :: rest =>
    by_cases hc : timespanToMillisecondsF tpm st now < maxAckDelay ∧
        ((k, st) :: rest : AckPendingMap).length < 33
    · have heq : performPacketAckSends tpm now ((k, st) :: rest) =
          ((k, st) :: rest, []) := by
        simp only [performPacketAckSends]
        rw [if_pos hc]
      rw [heq]
      refine ⟨?_, by simp, by simp, fun _ => rfl⟩
      simp only [ne_eq, not_true_eq_false, false_iff, not_and, not_or]
      intro _
      constructor
      · simpa using not_le.mpr hc.1
      · simpa using not_le.mpr hc.2
    · have heq : performPacketAckSends tpm now ((k, st) :: rest) =
          ([], sendPacketAckMessage ((k, st) :: rest)) := by
        simp only [performPacketAckSends]
        rw [if_neg hc]
      have hne : sendPacketAckMessage ((k, st) :: rest) ≠ [] := by
        rw [sendPacketAckMessage]
        simp
      rw [heq]
      rw [not_and_or] at hc
      refine ⟨?_, fun m _ => ackMessageIDCount_le_33 m, ?_, ?_⟩
      · simp only [hne, ne_eq, not_false_eq_true, true_iff]
        refine ⟨by simp, ?_⟩
        rcases hc with hc | hc
        · exact Or.inl (by simpa using not_lt.mp hc)
        · exact Or.inr (by simpa using not_lt.mp hc)
      · intro _
        exact ⟨rfl, sendPacketAckMessage_acked_perm _ hnd⟩
      · intro h
        exact absurd h hne

theorem performPacketAckSends_spec_witness :
    ((([((3 : ℕ), (0 : ℕ))]) : AckPendingMap).map Prod.fst).Nodup ∧
    (((performPacketAckSends 1 100 [(3, 0)]).2 ≠ [] ↔
      (([((3 : ℕ), (0 : ℕ))]) : AckPendingMap) ≠ [] ∧
        (maxAckDelay ≤
            timespanToMillisecondsF 1
              ((([((3 : ℕ), (0 : ℕ))]) : AckPendingMap).head?.getD (0, 0)).2 100 ∨
          33 ≤ (([((3 : ℕ), (0 : ℕ))]) : AckPendingMap).length)) ∧
    (∀ m ∈ (performPacketAckSends 1 100 [(3, 0)]).2, ackMessageIDCount m ≤ 33) ∧
    ((performPacketAckSends 1 100 [(3, 0)]).2 ≠ [] →
      (performPacketAckSends 1 100 [(3, 0)]).1 = [] ∧
      (((performPacketAckSends 1 100 [(3, 0)]).2.map ackMessageAckedIDs).flatten).Perm
        ((([((3 : ℕ), (0 : ℕ))]) : AckPendingMap).map Prod.fst)) ∧
    ((performPacketAckSends 1 100 [(3, 0)]).2 = [] →
      (performPacketAckSends 1 100 [(3, 0)]).1 = [(3, 0)])) :=
  ⟨by decide, performPacketAckSends_spec 1 100 [(3, 0)] (by decide)⟩

/-- C4 counterexample: with one pending entry whose age is exactly 33 ms
(tick rate 1 tick/ms, received at tick 0, now 33), the engine emits an ack
message, although the entry is not strictly "older than 33 ms" and fewer
than 33 entries are pending — the claim's emission condition, read
literally, is false while a message is emitted. -/
theorem performPacketAckSends_boundary_counterexample :
    (performPacketAckSends 1 33 [(5, 0)]).2 ≠ [] ∧
    ¬(maxAckDelay < timespanToMillisecondsF 1 0 33 ∨
        33 ≤ (([((5 : ℕ), (0 : ℕ))]) : AckPendingMap).length) := by
  constructor
  · have hcond : ¬(timespanToMillisecondsF 1 0 33 < maxAckDelay ∧
        (([((5 : ℕ), (0 : ℕ))]) : AckPendingMap).length < 33) := by
      rintro ⟨h1, -⟩
      norm_num [timespanToMillisecondsF, maxAckDelay] at h1
    have heq : performPacketAckSends 1 33 [(5, 0)] =
        ([], sendPacketAckMessage [(5, 0)]) := by
      simp only [performPacketAckSends]
      rw [if_neg hcond]
    rw [heq]
    rw [sendPacketAckMessage]
    simp
  · norm_num [timespanToMillisecondsF, maxAckDelay]

/-- C5: the 7-byte payload built by `SendPacketAckMessage` round-trips
through `HandlePacketAckMessage`: for every 22-bit base packet id and every
pending tail, the receiver frees exactly the ids the sender erased — the
base id plus `base + i + 1` for each set bit `i` of the bitfield. -/
theorem ackPayload_roundtrip_frees_erased (base t : ℕ) (rest : AckPendingMap)
    (hbase : base < 2 ^ 22) :
    (sendPacketAckMessage ((base, t) :: rest)).head? =
      some (base, (collectAckBitsAux base rest (List.range 32)).1) ∧
    handlePacketAckFreedIDs
        (encodeAckPayload base (collectAckBitsAux base rest (List.range 32)).1) =
      sendPacketAckErased base rest := by
  have hspec := collectAckBitsAux_spec base (List.range 32) rest
    (fun i hi => List.mem_range.mp hi) (List.nodup_range 32)
  constructor
  · rw [sendPacketAckMessage]
    rfl
  · have hseq : (collectAckBitsAux base rest (List.range 32)).1 < 2 ^ 32 := hspec.1
    have hb24 : base < 2 ^ 24 := lt_trans hbase (by norm_num)
    have hdec : decodeAckPayload
        (encodeAckPayload base (collectAckBitsAux base rest (List.range 32)).1) =
        some (base, (collectAckBitsAux base rest (List.range 32)).1) := by
      set q := (collectAckBitsAux base rest (List.range 32)).1 with hq
      unfold encodeAckPayload u16LEBytes u32LEBytes decodeAckPayload
      simp only [List.cons_append, List.nil_append]
      have h1 : base / 256 % 256 + 256 * (base / 256 / 256 % 256) = base / 256 := by
        omega
      have h2 : base % 256 ||| (base / 256) <<< 8 = base := by
        rw [Nat.shiftLeft_eq, Nat.lor_comm, Nat.mul_comm,
          ← Nat.mul_add_lt_is_or (by omega : base % 256 < 2 ^ 8)]
        omega
      have h3 : q % 256 + 256 * (q / 256 % 256) + 256 ^ 2 * (q / 256 ^ 2 % 256) +
          256 ^ 3 * (q / 256 ^ 3 % 256) = q := by
        have : q < 4294967296 := by
          have := hseq
          norm_num at this ⊢
          omega
        norm_num
        omega
      rw [h1, h2, h3]
    unfold handlePacketAckFreedIDs
    rw [hdec]
    unfold sendPacketAckErased
    refine congrArg (base :: ·) ?_
    have hfun : (fun i => addPacketID base (1 + i)) =
        fun i => addPacketID base (i + 1) := by
      funext i
      rw [Nat.add_comm]
    rw [hfun]
    exact hspec.2.2

theorem ackPayload_roundtrip_frees_erased_witness :
    (3 : ℕ) < 2 ^ 22 ∧
    ((sendPacketAckMessage ((3, 0) :: [(4, 5)])).head? =
      some (3, (collectAckBitsAux 3 [(4, 5)] (List.range 32)).1) ∧
    handlePacketAckFreedIDs
        (encodeAckPayload 3 (collectAckBitsAux 3 [(4, 5)] (List.range 32)).1) =
      sendPacketAckErased 3 [(4, 5)]) :=
  ⟨by decide, ackPayload_roundtrip_frees_erased 3 0 [(4, 5)] (by decide)⟩

/-- C1 (amended): in the `ExtractMessages` parsing loop, a reliable message
whose reliable-message-number is already in the received-reliable set is
parsed but dropped when it is a plain message or a fragment start (no
handler call, no reassembly-buffer change, parsing continues with the rest
of the datagram) — but a duplicate CONTINUING fragment is still handed to
the reassembly manager exactly like a fresh one (necessarily so: all
fragments of a transfer share the parent's reliable-message-number, so
every fragment after the first is a "duplicate"). Non-duplicate
reliable-message-numbers are inserted into the set. -/
theorem extractLoop_duplicate_handling (packetID base : ℕ) (m : DatagramMessage)
    (rest : List DatagramMessage) (s : ExtractState) (n : ℕ)
    (hrel : m.reliable = true)
    (hcl : m.contentLength ≠ 0)
    (hpl : m.contentLength ≤ m.payload.length) :
    (base + m.reliableDelta ∈ s.receivedReliableMessages →
      (m.fragmentStart = false → m.fragmentBit = false →
        extractLoop packetID base (m :: rest) s n =
          extractLoop packetID base rest s n) ∧
      (m.fragmentStart = true →
        ¬(m.numTotalFragments = vleReadError ∨ m.numTotalFragments ≤ 1) →
        extractLoop packetID base (m :: rest) s n =
          extractLoop packetID base rest s n) ∧
      (m.fragmentStart = false → m.fragmentBit = true →
        m.fragmentNumber ≠ vleReadError →
        extractLoop packetID base (m :: rest) s n =
          (if (newFragmentReceived s.fragmentedReceives m.fragmentTransferID
              m.fragmentNumber (m.payload.take m.contentLength)).1 then
            extractLoop packetID base rest
              { s with
                  fragmentedReceives :=
                    freeReassemblyBuffer
                      (newFragmentReceived s.fragmentedReceives m.fragmentTransferID
                        m.fragmentNumber (m.payload.take m.contentLength)).2
                      m.fragmentTransferID
                  handledMessages := s.handledMessages ++
                    [(packetID,
                      assembleMessage
                        (newFragmentReceived s.fragmentedReceives m.fragmentTransferID
                          m.fragmentNumber (m.payload.take m.contentLength)).2
                        m.fragmentTransferID)] }
              (n + 1)
          else
            extractLoop packetID base rest
              { s with
                  fragmentedReceives :=
                    (newFragmentReceived s.fragmentedReceives m.fragmentTransferID
                      m.fragmentNumber (m.payload.take m.contentLength)).2 }
              n))) ∧
    (base + m.reliableDelta ∉ s.receivedReliableMessages →
      m.fragmentStart = false → m.fragmentBit = false →
      extractLoop packetID base (m :: rest) s n =
        extractLoop packetID base rest
          { s with
              receivedReliableMessages :=
                s.receivedReliableMessages ++ [base + m.reliableDelta]
              handledMessages := s.handledMessages ++
                [(packetID, m.payload.take m.contentLength)] }
          (n + 1)) := by
  have hnotlt : ¬(m.payload.length < m.contentLength) := not_lt.mpr hpl
  constructor
  · intro hdup
    refine ⟨?_, ?_, ?_⟩
    · intro hfs hfb
      simp only [extractLoop, hrel, hdup, hcl, hnotlt, hfs, hfb]
      simp
    · intro hfs hbad
      simp only [extractLoop, hrel, hdup, hcl, hnotlt, hfs, hbad]
      simp
    · intro hfs hfb hfn
      simp only [extractLoop, hrel, hdup, hcl, hnotlt, hfs, hfb, hfn]
      simp
  · intro hnodup hfs hfb
    simp only [extractLoop, hrel, hnodup, hcl, hnotlt, hfs, hfb]
    simp

theorem extractLoop_duplicate_handling_witness :
    dupPlainMessage.reliable = true ∧
    dupPlainMessage.contentLength ≠ 0 ∧
    dupPlainMessage.contentLength ≤ dupPlainMessage.payload.length ∧
    (5 + dupPlainMessage.reliableDelta ∈ dupReceiverState.receivedReliableMessages →
      (dupPlainMessage.fragmentStart = false → dupPlainMessage.fragmentBit = false →
        extractLoop 9 5 [dupPlainMessage] dupReceiverState 0 =
          extractLoop 9 5 [] dupReceiverState 0) ∧
      (dupPlainMessage.fragmentStart = true →
        ¬(dupPlainMessage.numTotalFragments = vleReadError ∨
            dupPlainMessage.numTotalFragments ≤ 1) →
        extractLoop 9 5 [dupPlainMessage] dupReceiverState 0 =
          extractLoop 9 5 [] dupReceiverState 0) ∧
      (dupPlainMessage.fragmentStart = false → dupPlainMessage.fragmentBit = true →
        dupPlainMessage.fragmentNumber ≠ vleReadError →
        extractLoop 9 5 [dupPlainMessage] dupReceiverState 0 =
          (if (newFragmentReceived dupReceiverState.fragmentedReceives
              dupPlainMessage.fragmentTransferID dupPlainMessage.fragmentNumber
              (dupPlainMessage.payload.take dupPlainMessage.contentLength)).1 then
            extractLoop 9 5 []
              { dupReceiverState with
                  fragmentedReceives :=
                    freeReassemblyBuffer
                      (newFragmentReceived dupReceiverState.fragmentedReceives
                        dupPlainMessage.fragmentTransferID dupPlainMessage.fragmentNumber
                        (dupPlainMessage.payload.take dupPlainMessage.contentLength)).2
                      dupPlainMessage.fragmentTransferID
                  handledMessages := dupReceiverState.handledMessages ++
                    [(9,
                      assembleMessage
                        (newFragmentReceived dupReceiverState.fragmentedReceives
                          dupPlainMessage.fragmentTransferID
                          dupPlainMessage.fragmentNumber
                          (dupPlainMessage.payload.take dupPlainMessage.contentLength)).2
                        dupPlainMessage.fragmentTransferID)] }
              (0 + 1)
          else
            extractLoop 9 5 []
              { dupReceiverState with
                  fragmentedReceives :=
                    (newFragmentReceived dupReceiverState.fragmentedReceives
                      dupPlainMessage.fragmentTransferID dupPlainMessage.fragmentNumber
                      (dupPlainMessage.payload.take dupPlainMessage.contentLength)).2 }
              0))) ∧
    (5 + dupPlainMessage.reliableDelta ∉ dupReceiverState.receivedReliableMessages →
      dupPlainMessage.fragmentStart = false → dupPlainMessage.fragmentBit = false →
      extractLoop 9 5 [dupPlainMessage] dupReceiverState 0 =
        extractLoop 9 5 []
          { dupReceiverState with
              receivedReliableMessages :=
                dupReceiverState.receivedReliableMessages ++
                  [5 + dupPlainMessage.reliableDelta]
              handledMessages := dupReceiverState.handledMessages ++
                [(9, dupPlainMessage.payload.take dupPlainMessage.contentLength)] }
          (0 + 1)) :=
  ⟨rfl, by decide, by decide,
   (extractLoop_duplicate_handling 9 5 dupPlainMessage [] dupReceiverState 0
     rfl (by decide) (by decide)).1,
   (extractLoop_duplicate_handling 9 5 dupPlainMessage [] dupReceiverState 0
     rfl (by decide) (by decide)).2⟩

/-- C1 counterexample: a datagram whose only message is a reliable
continuing fragment with an already-seen reliable-message-number (a
duplicate). The claim says its payload "is not added to a reassembly
buffer", yet `ExtractMessages` hands it to the reassembly manager and the
reassembly buffers change. -/
theorem duplicate_continuing_fragment_reaches_reassembly :
    dupContinuingFragment.reliable = true ∧
    dupFragmentDatagram.reliableMessageIndexBase +
        dupContinuingFragment.reliableDelta ∈
      dupReceiverState.receivedReliableMessages ∧
    (extractMessages 50 dupReceiverState dupFragmentDatagram).fragmentedReceives ≠
      dupReceiverState.fragmentedReceives := by
  refine ⟨rfl, by decide, by decide⟩

/-- C7: when `HandlePingReplyMessage` matches a pending, unanswered ping
entry with the received ping id, the connection's `rtt` becomes
`0.5·newRtt + 0.5·rtt`, with `newRtt` the milliseconds between the ping
send tick and the reply tick. (The source writes the second coefficient as
`1.f * rttPredictBias`, which equals `0.5` exactly.) -/
theorem handlePingReply_rtt_ewma (tpm : ℚ) (now : ℕ) (s : PingState)
    (pingID : ℕ) (track : PingTrack)
    (h : (s.ping.find? fun t =>
        decide (t.pingID = pingID ∧ t.replyReceived = false)) = some track) :
    (handlePingReplyMessage tpm now s [pingID]).rtt =
      1 / 2 * ticksToMilliseconds tpm (now - track.pingSentTick) +
        1 / 2 * s.rtt := by
  have := pingReplyScan_rtt tpm now pingID s.rtt s.ping track h
  simp only [handlePingReplyMessage]
  rw [this]
  ring

theorem handlePingReply_rtt_ewma_witness :
    (([{ pingID := 7, pingSentTick := 10, pingReplyTick := 0,
         replyReceived := false }] : List PingTrack).find? fun t =>
        decide (t.pingID = 7 ∧ t.replyReceived = false)) =
      some { pingID := 7, pingSentTick := 10, pingReplyTick := 0,
             replyReceived := false } ∧
    (handlePingReplyMessage 1 50
        { ping := [{ pingID := 7, pingSentTick := 10, pingReplyTick := 0,
                     replyReceived := false }]
          rtt := 10 } [7]).rtt =
      1 / 2 * ticksToMilliseconds 1 (50 - 10) + 1 / 2 * (10 : ℚ) :=
  ⟨by decide,
   handlePingReply_rtt_ewma 1 50
     { ping := [{ pingID := 7, pingSentTick := 10, pingReplyTick := 0,
                  replyReceived := false }]
       rtt := 10 } 7
     { pingID := 7, pingSentTick := 10, pingReplyTick := 0,
       replyReceived := false } (by decide)⟩

/-- C10: `HandleDisconnectAckMessage` closes the connection from every
prior state — Pending, OK, Disconnecting, PeerClosed or already Closed —
not only from Disconnecting. -/
theorem handleDisconnectAckMessage_always_closes (s : ConnectionState) :
    handleDisconnectAckMessage s = ConnectionState.connectionClosed := by
  cases s <;> rfl

end KNet
